import Mathlib

/-!
Verification of the lifetime/ownership layer of the quickjs-emscripten bridge
(`src/ts/quickjs.ts`), as a shallow embedding in Lean 4.

The embedding covers:
* the generic `Lifetime` disposable-resource primitive (class `Lifetime`);
* the handle-facade virtual machine (`QuickJSVm`) with its value constructors,
  property operations, call/eval protocol, dump/unwrap, and teardown;
* the process-wide runtime manager (`QuickJS`) with its singleton guard and
  the engine-to-host callback trampoline.

Engine primitives (the `QTS_*` functions implemented in C, outside the
TypeScript sources) are modelled from the specification's boundary contract;
each such definition is marked `Modelled from the spec:` in its doc comment.
Everything else is a direct translation of the TypeScript source, including
its quirks (in particular `Lifetime.dispose` assigning `_alive = true`).
-/

namespace LifetimeM

/-- Direct translation of the generic `Lifetime<T, Owner>` class state.
`disposerRuns` is ghost instrumentation counting how many times the
registered disposer has been invoked; `hasDisposer` records whether a
disposer was supplied to the constructor. -/
structure Lifetime (T : Type) (O : Type) where
  val : T
  hasDisposer : Bool
  ownerTag : Option O
  aliveFlag : Bool
  disposerRuns : Nat
  deriving Repr, DecidableEq

/-- Translation of `new Lifetime(value, disposer?, owner?)`: the alive flag
starts true and the disposer has not yet run. -/
def Lifetime.make {T O : Type} (v : T) (hasDisposer : Bool) (owner : Option O) :
    Lifetime T O :=
  ⟨v, hasDisposer, owner, true, 0⟩

/-- Translation of the `value` getter: `assertAlive()` then return the value. -/
def Lifetime.value {T O : Type} (l : Lifetime T O) : Except String T :=
  if !l.aliveFlag then .error "Not alive" else .ok l.val

/-- Translation of the `owner` getter (no aliveness check in the source). -/
def Lifetime.owner {T O : Type} (l : Lifetime T O) : Option O :=
  l.ownerTag

/-- Translation of `dispose()`: `assertAlive()`, run the disposer when one was
registered, then execute the source's `this._alive = true` assignment (the
source really assigns `true`, not `false`). -/
def Lifetime.dispose {T O : Type} (l : Lifetime T O) : Except String (Lifetime T O) :=
  if !l.aliveFlag then .error "Not alive"
  else
    .ok { l with
            disposerRuns := if l.hasDisposer then l.disposerRuns + 1 else l.disposerRuns,
            aliveFlag := true }

/-- C1: the claim says a disposed lifetime rejects `value` reads and second
`dispose()` calls with a "not alive" error and that the first `dispose()`
sets the alive flag to false.  The code instead executes `this._alive = true`
in `dispose()`, so after the first dispose the lifetime still reports alive,
`value` still succeeds, and a second `dispose()` succeeds and runs the
registered disposer a second time.  This theorem evaluates the translated
code at a concrete failing input (a lifetime wrapping `7` with a disposer):
the first dispose runs the disposer once but leaves the alive flag true,
after which reading `value` yields `7` and a second dispose runs the
disposer again. -/
theorem c1_dispose_leaves_lifetime_alive :
    ∃ l1 l2 : Lifetime Nat Unit,
      (Lifetime.make 7 true none).dispose = .ok l1 ∧
      l1.disposerRuns = 1 ∧
      l1.aliveFlag = true ∧
      l1.value = .ok 7 ∧
      l1.dispose = .ok l2 ∧
      l2.disposerRuns = 2 ∧
      l2.aliveFlag = true := by
  refine ⟨_, _, rfl, rfl, rfl, rfl, rfl, rfl, rfl⟩

end LifetimeM

namespace SingletonM

/-- Process-wide state observed by the `QuickJS` constructor and
`getInstance`: whether the emscripten module finished initializing
(`isReady`), the module-level `singleton` variable, and a supply of fresh
instance identifiers. -/
structure ProcessState where
  isReady : Bool
  singleton : Option Nat
  nextId : Nat
  deriving Repr, DecidableEq

/-- Error message thrown when constructing before module initialization. -/
def notReadyMsg : String :=
  "QuickJS WASM module not initialized. Either wait for ready or use getInstance()"

/-- Error message thrown when a previous instance already exists. -/
def secondInstanceMsg : String :=
  "Cannot create another QuickJS instance. Use the instance already created (try getInstance())"

/-- Translation of the `QuickJS` constructor: throw if the module is not
ready, throw if the module-level `singleton` is already set, otherwise
record the new instance in `singleton`.  (The subsequent trampoline
registration performs no further checks.) -/
def constructQuickJS (ps : ProcessState) : Except String (ProcessState × Nat) :=
  if !ps.isReady then .error notReadyMsg
  else
    match ps.singleton with
    | some _ => .error secondInstanceMsg
    | none =>
        .ok ({ ps with singleton := some ps.nextId, nextId := ps.nextId + 1 }, ps.nextId)

/-- Translation of `getInstance()`: await `ready` (which sets `isReady`),
then construct the singleton only if it does not exist yet. -/
def getInstance (ps : ProcessState) : Except String (ProcessState × Nat) :=
  let ps := { ps with isReady := true }
  match ps.singleton with
  | some q => .ok (ps, q)
  | none => constructQuickJS ps

/-- C8: at most one `QuickJS` runtime-manager instance can exist per process.
Construction before the engine module is initialized fails; construction
while a previous instance exists fails; and a successful construction
requires that no instance existed, records the new one, and makes every
subsequent construction attempt fail. -/
theorem c8_singleton_runtime_manager (ps : ProcessState) :
    (ps.isReady = false → constructQuickJS ps = .error notReadyMsg) ∧
    (∀ i, ps.singleton = some i → ps.isReady = true →
      constructQuickJS ps = .error secondInstanceMsg) ∧
    (∀ ps' q, constructQuickJS ps = .ok (ps', q) →
      ps.singleton = none ∧ ps'.singleton = some q ∧
        constructQuickJS ps' = .error secondInstanceMsg) := by
  refine ⟨?_, ?_, ?_⟩
  · intro h
    simp [constructQuickJS, h]
  · intro i hi hr
    simp [constructQuickJS, hr, hi]
  · intro ps' q h
    unfold constructQuickJS at h
    by_cases hr : ps.isReady = true
    · simp only [hr] at h
      cases hs : ps.singleton with
      | some i => simp [hs] at h
      | none =>
          simp only [hs] at h
          simp only [Bool.not_true, Bool.false_eq_true, if_false] at h
          cases h
          refine ⟨rfl, rfl, ?_⟩
          simp [constructQuickJS, hr]
    · have : ps.isReady = false := by
        cases hb : ps.isReady
        · rfl
        · exact absurd hb hr
      simp [this] at h

/-- Witness for C8 at concrete process states: a not-ready state rejects
construction, a state holding instance 0 rejects construction, and from a
fresh ready state construction succeeds once and then fails. -/
theorem c8_singleton_runtime_manager_witness :
    constructQuickJS ⟨false, none, 0⟩ = .error notReadyMsg ∧
    constructQuickJS ⟨true, some 0, 1⟩ = .error secondInstanceMsg ∧
    (constructQuickJS ⟨true, none, 0⟩ = .ok (⟨true, some 0, 1⟩, 0) ∧
      constructQuickJS ⟨true, some 0, 1⟩ = .error secondInstanceMsg) := by
  refine ⟨(c8_singleton_runtime_manager ⟨false, none, 0⟩).1 rfl,
          (c8_singleton_runtime_manager ⟨true, some 0, 1⟩).2.1 0 rfl rfl, rfl,
          ((c8_singleton_runtime_manager ⟨true, none, 0⟩).2.2 ⟨true, some 0, 1⟩ 0 rfl).2.2⟩

end SingletonM

namespace QJS

/-- Machine address on the emscripten heap (a pointer; 0 is the null value). -/
abbrev Addr := Nat

/-- Engine-side Javascript value, as far as the bridge observes it: the
`typeof` classes the facade distinguishes (undefined, number, string) plus
objects with named properties.  The host-side result of `dump`'s structured
parse is represented by the same type (the parse of the serialization of a
value is the value). -/
inductive EValue where
  | undefined
  | num (n : Int)
  | str (s : String)
  | obj (props : List (String × EValue))
  deriving Repr

/-- Structural decidable equality for engine values (hand-written because
the nested occurrence in `obj` defeats the automatic derivation). -/
def EValue.deq : (a b : EValue) → Decidable (a = b)
  | .undefined, .undefined => isTrue rfl
  | .undefined, .num _ => isFalse (by intro h; cases h)
  | .undefined, .str _ => isFalse (by intro h; cases h)
  | .undefined, .obj _ => isFalse (by intro h; cases h)
  | .num _, .undefined => isFalse (by intro h; cases h)
  | .num m, .num n =>
      if h : m = n then isTrue (by rw [h]) else isFalse (by intro hc; cases hc; exact h rfl)
  | .num _, .str _ => isFalse (by intro h; cases h)
  | .num _, .obj _ => isFalse (by intro h; cases h)
  | .str _, .undefined => isFalse (by intro h; cases h)
  | .str _, .num _ => isFalse (by intro h; cases h)
  | .str s, .str t =>
      if h : s = t then isTrue (by rw [h]) else isFalse (by intro hc; cases hc; exact h rfl)
  | .str _, .obj _ => isFalse (by intro h; cases h)
  | .obj _, .undefined => isFalse (by intro h; cases h)
  | .obj _, .num _ => isFalse (by intro h; cases h)
  | .obj _, .str _ => isFalse (by intro h; cases h)
  | .obj ps, .obj qs =>
      match ps, qs with
      | [], [] => isTrue rfl
      | [], _ :: _ => isFalse (by intro h; cases h)
      | _ :: _, [] => isFalse (by intro h; cases h)
      | (k, v) :: ps, (k2, v2) :: qs =>
          match decEq k k2, EValue.deq v v2, EValue.deq (.obj ps) (.obj qs) with
          | isTrue h1, isTrue h2, isTrue h3 =>
              isTrue (by cases h1; cases h2; cases EValue.obj.inj h3; rfl)
          | isFalse h1, _, _ => isFalse (by intro h; cases h; exact h1 rfl)
          | _, isFalse h2, _ => isFalse (by intro h; cases h; exact h2 rfl)
          | _, _, isFalse h3 => isFalse (by intro h; cases h; exact h3 rfl)

instance : DecidableEq EValue := EValue.deq

/-- Javascript string coercion of a value when used as a property key. -/
def EValue.toKeyString : EValue → String
  | .undefined => "undefined"
  | .num n => toString n
  | .str s => s
  | .obj _ => "[object Object]"

/-- Javascript truthiness of a host value. -/
def EValue.truthy : EValue → Bool
  | .undefined => false
  | .num n => n != 0
  | .str s => s != ""
  | .obj _ => true

/-- Outcome the engine produces for one invocation of its call or eval
primitive: a normal completion value or a thrown exception value. -/
inductive CallOutcome where
  | completed (v : EValue)
  | threw (e : EValue)
  deriving Repr

/-- Modelled from the spec: the engine-boundary state.  `heap` maps value
addresses to engine values; `excMap` marks raw result addresses that carry a
pending exception together with the exception value; `argvs` holds the
argument-array blocks the engine passes to host callbacks; `hostMem` holds
blocks allocated through the module allocator (`_malloc`); `script` lists
the outcomes the engine will produce for successive call/eval invocations;
`thrown` accumulates values signalled to the engine via its throw
primitive. -/
structure Engine where
  heap : List (Addr × EValue)
  excMap : List (Addr × EValue)
  argvs : List (Addr × List Addr)
  hostMem : List (Addr × List Addr)
  script : List CallOutcome
  thrown : List EValue
  nextAddr : Addr
  deriving Repr

/-- Modelled from the spec: allocate a fresh address holding `v`. -/
def Engine.alloc (e : Engine) (v : EValue) : Engine × Addr :=
  ({ e with heap := (e.nextAddr, v) :: e.heap, nextAddr := e.nextAddr + 1 }, e.nextAddr)

/-- Modelled from the spec: read the engine value at an address (undefined
when the address holds nothing). -/
def Engine.read (e : Engine) (a : Addr) : EValue :=
  (e.heap.lookup a).getD .undefined

/-- Modelled from the spec: allocate a fresh raw address that is not a heap
value (runtime and context pointers). -/
def Engine.allocRaw (e : Engine) : Engine × Addr :=
  ({ e with nextAddr := e.nextAddr + 1 }, e.nextAddr)

/-- Modelled from the spec: `QTS_GetUndefined()` returns the process-constant
address of the undefined value. -/
def QTS_GetUndefined : Addr := 1

/-- Modelled from the spec: `QTS_NewFloat64(ctx, n)`. -/
def QTS_NewFloat64 (e : Engine) (n : Int) : Engine × Addr := e.alloc (.num n)

/-- Modelled from the spec: `QTS_GetFloat64(ctx, v)`; numeric-conversion
failure yields the NaN sentinel, collapsed to `0` in this integer model. -/
def QTS_GetFloat64 (e : Engine) (a : Addr) : Int :=
  match e.read a with
  | .num n => n
  | _ => 0

/-- Modelled from the spec: `QTS_NewString(ctx, s)`. -/
def QTS_NewString (e : Engine) (s : String) : Engine × Addr := e.alloc (.str s)

/-- Modelled from the spec: `QTS_GetString(ctx, v)` (string coercion). -/
def QTS_GetString (e : Engine) (a : Addr) : String := (e.read a).toKeyString

/-- Modelled from the spec: `QTS_Typeof(ctx, v)`. -/
def QTS_Typeof (e : Engine) (a : Addr) : String :=
  match e.read a with
  | .undefined => "undefined"
  | .num _ => "number"
  | .str _ => "string"
  | .obj _ => "object"

/-- Modelled from the spec: `QTS_NewObject(ctx)`. -/
def QTS_NewObject (e : Engine) : Engine × Addr := e.alloc (.obj [])

/-- Modelled from the spec: `QTS_NewObjectProto(ctx, proto)`; the prototype
link itself is not observed by any facade operation in this model. -/
def QTS_NewObjectProto (e : Engine) (_proto : Addr) : Engine × Addr := e.alloc (.obj [])

/-- Modelled from the spec: `QTS_NewError(ctx)` creates a fresh error object
with no populated fields yet. -/
def QTS_NewError (e : Engine) : Engine × Addr := e.alloc (.obj [])

/-- Modelled from the spec: `QTS_NewFunction(ctx, idValue, name)` creates a
native-callable value; the engine retains the callback id internally. -/
def QTS_NewFunction (e : Engine) (fnIdPtr : Addr) (_name : String) : Engine × Addr :=
  e.alloc (.obj [("fnId", e.read fnIdPtr)])

/-- Update the value stored at an already-allocated address. -/
def Engine.writeAt (e : Engine) (a : Addr) (v : EValue) : Engine :=
  { e with heap := e.heap.map (fun p => if p.1 = a then (a, v) else p) }

/-- Replace the binding of key `k` in a property list. -/
def setAssoc (l : List (String × EValue)) (k : String) (v : EValue) :
    List (String × EValue) :=
  (k, v) :: l.filter (fun p => p.1 ≠ k)

/-- Modelled from the spec: `QTS_GetProp(ctx, obj, key)` returns a fresh
strong reference to the property value (undefined when absent). -/
def QTS_GetProp (e : Engine) (objA keyA : Addr) : Engine × Addr :=
  match e.read objA with
  | .obj props => e.alloc ((props.lookup (e.read keyA).toKeyString).getD .undefined)
  | _ => e.alloc .undefined

/-- Modelled from the spec: `QTS_SetProp(ctx, obj, key, val)`. -/
def QTS_SetProp (e : Engine) (objA keyA valA : Addr) : Engine :=
  match e.read objA with
  | .obj props => e.writeAt objA (.obj (setAssoc props (e.read keyA).toKeyString (e.read valA)))
  | _ => e

/-- Modelled from the spec: `QTS_DefineProp(ctx, obj, key, value, get, set,
configurable, enumerable, hasValue)`; only the data-property effect is
observable in this model (accessor installation is abstracted). -/
def QTS_DefineProp (e : Engine) (objA keyA valA _getA _setA : Addr)
    (_configurable _enumerable : Bool) (hasValue : Bool) : Engine :=
  if hasValue then QTS_SetProp e objA keyA valA else e

/-- Modelled from the spec: `QTS_FreeValuePointer(ctx, v)` releases the value
block at the address. -/
def QTS_FreeValuePointer (e : Engine) (a : Addr) : Engine :=
  { e with heap := e.heap.filter (fun p => p.1 ≠ a) }

/-- Modelled from the spec: `QTS_DupValue(ctx, v)` returns a fresh reference
to the same value. -/
def QTS_DupValue (e : Engine) (a : Addr) : Engine × Addr := e.alloc (e.read a)

/-- Modelled from the spec: `QTS_Throw(ctx, errVal)` records the value as the
engine's pending exception and returns the neutral sentinel. -/
def QTS_Throw (e : Engine) (errA : Addr) : Engine × Addr :=
  ({ e with thrown := e.read errA :: e.thrown }, 0)

/-- Modelled from the spec: shared behavior of the engine call and eval
primitives, driven by the engine's outcome script: allocate an address for
the raw result and mark it as a pending exception when the outcome threw. -/
def Engine.runOutcome (e : Engine) : Engine × Addr :=
  match e.script with
  | [] => e.alloc .undefined
  | .completed v :: rest => Engine.alloc { e with script := rest } v
  | .threw ex :: rest =>
      let (e1, r) := Engine.alloc { e with script := rest } .undefined
      ({ e1 with excMap := (r, ex) :: e1.excMap }, r)

/-- Modelled from the spec: `QTS_Call(ctx, fn, this, argc, argv)`. -/
def QTS_Call (e : Engine) (_ctx _fn _thisV : Addr) (_argc : Nat) (_argv : Addr) :
    Engine × Addr :=
  e.runOutcome

/-- Modelled from the spec: `QTS_Eval(ctx, code)`. -/
def QTS_Eval (e : Engine) (_ctx : Addr) (_code : String) : Engine × Addr :=
  e.runOutcome

/-- Modelled from the spec: `QTS_ResolveException(ctx, maybeException)`
returns a handle to the error when the raw result carries a pending
exception, and the null address otherwise. -/
def QTS_ResolveException (e : Engine) (_ctx r : Addr) : Engine × Addr :=
  match e.excMap.lookup r with
  | some ex => e.alloc ex
  | none => (e, 0)

/-- Modelled from the spec: `QTS_ArgvGetJSValueConstPointer(argv, index)`. -/
def QTS_ArgvGet (e : Engine) (argv : Addr) (i : Nat) : Addr :=
  (((e.argvs.lookup argv).getD []).get? i).getD 0

/-- Modelled from the spec: `module._malloc` of a pointer array followed by
copying each handle's raw address into the block. -/
def Engine.mallocPtrArray (e : Engine) (ptrs : List Addr) : Engine × Addr :=
  ({ e with hostMem := (e.nextAddr, ptrs) :: e.hostMem, nextAddr := e.nextAddr + 1 },
   e.nextAddr)

/-- Modelled from the spec: `module._free` of a host-memory block. -/
def Engine.freeHostBlock (e : Engine) (a : Addr) : Engine :=
  { e with hostMem := e.hostMem.filter (fun p => p.1 ≠ a) }

/-- Disposer registered with a lifetime, identified by which closure the
source installs: none, the VM's `freeJSValue`, the pointer-array `_free`,
the context disposer (vm-table delete plus context free), or the runtime
disposer. -/
inductive DisposerK where
  | noDisposer
  | freeJSValue (vmId : Nat)
  | freeHostMem
  | ctxDisposer
  | rtDisposer
  deriving Repr, DecidableEq

/-- One lifetime object in the store: the protected address, the owner tag,
the registered disposer, the `_alive` flag, and ghost instrumentation
counting successful `dispose()` invocations. -/
structure LtRec where
  addr : Addr
  owner : Option Nat
  disp : DisposerK
  alive : Bool
  disposeCount : Nat
  deriving Repr

/-- Observable events of a run, in order: `dispose()` entered on a lifetime,
engine value freed, host-memory block freed, vm-table entry removed, context
freed, runtime freed, and the trampoline's `console.error` report. -/
inductive Event where
  | disposeLt (lid : Nat)
  | freeValue (a : Addr)
  | freeHostMemE (a : Addr)
  | vmMapDelete (a : Addr)
  | freeCtx (a : Addr)
  | freeRt (a : Addr)
  | consoleError
  deriving Repr, DecidableEq

/-- Per-VM facade state: the context and runtime lifetimes, the memoized
`undefined` and `global` handles, the auxiliary-disposal table
(`this.lifetimes`), and the host-callback registry (`fnNextId`, `fnMap`;
implementations are referenced by an opaque tag interpreted externally). -/
structure Vm where
  ctxLt : Nat
  rtLt : Nat
  undefCache : Option Nat
  globalCache : Option Nat
  auxLts : List Nat
  fnNextId : Nat
  fnMap : List (Int × Nat)
  deriving Repr

/-- Whole-bridge state: the engine, the lifetime store keyed by lifetime id,
the VMs keyed by VM id, the runtime manager's context-address-to-VM table,
and the event log. -/
structure World where
  engine : Engine
  lts : List (Nat × LtRec)
  nextLt : Nat
  vms : List (Nat × Vm)
  nextVm : Nat
  vmMap : List (Addr × Nat)
  log : List Event
  deriving Repr

/-- Translation of `new Lifetime(addr, disposer, owner)` into the store:
allocate a fresh lifetime id for an alive record. -/
def World.newLifetime (w : World) (addr : Addr) (disp : DisposerK)
    (owner : Option Nat) : World × Nat :=
  ({ w with lts := (w.nextLt, ⟨addr, owner, disp, true, 0⟩) :: w.lts,
            nextLt := w.nextLt + 1 },
   w.nextLt)

/-- Record of the lifetime with the given id, when it exists. -/
def World.ltRec (w : World) (lid : Nat) : Option LtRec := w.lts.lookup lid

/-- Translation of the `alive` getter. -/
def World.ltAlive (w : World) (lid : Nat) : Bool :=
  ((w.ltRec lid).map (·.alive)).getD false

/-- Translation of the `owner` getter. -/
def World.ltOwner (w : World) (lid : Nat) : Option Nat :=
  (w.ltRec lid).bind (·.owner)

/-- Translation of the `value` getter: `assertAlive()` then the value. -/
def World.ltValue (w : World) (lid : Nat) : Except String Addr :=
  match w.ltRec lid with
  | some r => if r.alive then .ok r.addr else .error "Not alive"
  | none => .error "Not alive"

/-- Replace the record stored for a lifetime id. -/
def World.setLt (w : World) (lid : Nat) (r : LtRec) : World :=
  { w with lts := w.lts.map (fun p => if p.1 = lid then (lid, r) else p) }

/-- Replace the record stored for a VM id. -/
def World.setVm (w : World) (vmId : Nat) (vm : Vm) : World :=
  { w with vms := w.vms.map (fun p => if p.1 = vmId then (vmId, vm) else p) }

/-- VM record for an id; internal-error message on a dangling id (a model
artifact: unreachable from well-formed states). -/
def World.getVm (w : World) (vmId : Nat) : Except String Vm :=
  match w.vms.lookup vmId with
  | some vm => .ok vm
  | none => .error "missing vm"

/-- Translation of `this.ctx.value` for a VM. -/
def World.ctxValue (w : World) (vmId : Nat) : Except String Addr := do
  let vm ← w.getVm vmId
  w.ltValue vm.ctxLt

/-- Run the disposer registered with a lifetime record (the body of each
disposer closure the source installs). -/
def runDisposer (w : World) (r : LtRec) : Except String World :=
  match r.disp with
  | .noDisposer => .ok w
  | .freeJSValue vmId => do
      let _ ← w.ctxValue vmId
      .ok { w with engine := QTS_FreeValuePointer w.engine r.addr,
                   log := w.log ++ [.freeValue r.addr] }
  | .freeHostMem =>
      .ok { w with engine := w.engine.freeHostBlock r.addr,
                   log := w.log ++ [.freeHostMemE r.addr] }
  | .ctxDisposer =>
      .ok { w with vmMap := w.vmMap.filter (fun p => p.1 ≠ r.addr),
                   log := w.log ++ [.vmMapDelete r.addr, .freeCtx r.addr] }
  | .rtDisposer =>
      .ok { w with log := w.log ++ [.freeRt r.addr] }

/-- Translation of `dispose()`: `assertAlive()`, run the disposer, then the
source's `this._alive = true` assignment (the alive flag is left `true`;
only the ghost dispose counter advances). -/
def World.ltDispose (w : World) (lid : Nat) : Except String World :=
  match w.ltRec lid with
  | none => .error "Not alive"
  | some r =>
      if !r.alive then .error "Not alive"
      else do
        let w1 := { w with log := w.log ++ [.disposeLt lid] }
        let w2 ← runDisposer w1 r
        .ok (w2.setLt lid { r with alive := true, disposeCount := r.disposeCount + 1 })

/-- Error message of the ownership check. -/
def differentVmMsg : String := "Given handle created by a different VM"

/-- Translation of `QuickJSVm.assertOwned(handle)`: fails only when the
handle carries an owner tag different from this VM. -/
def World.assertOwned (w : World) (vmId : Nat) (lid : Nat) : Except String Unit :=
  match w.ltOwner lid with
  | some o => if o ≠ vmId then .error differentVmMsg else .ok ()
  | none => .ok ()

/-- Translation of `this.heapValueHandle(ptr)`: a lifetime whose disposer is
the VM's `freeJSValue` and whose owner is the VM. -/
def World.heapValueHandle (w : World) (vmId : Nat) (ptr : Addr) : World × Nat :=
  w.newLifetime ptr (.freeJSValue vmId) (some vmId)

/-- Property key argument of `getProp`/`setProp`/`defineProp`: a Javascript
string (auto-converted) or an existing handle. -/
inductive Key where
  | str (s : String)
  | handle (lid : Nat)

/-- Translation of the `undefined` getter: return the memoized handle when
present, otherwise wrap the constant undefined address in a fresh lifetime
with no disposer and no owner, and memoize it. -/
def vmUndefined (vmId : Nat) (w : World) : Except String (World × Nat) := do
  let vm ← w.getVm vmId
  match vm.undefCache with
  | some lid => .ok (w, lid)
  | none =>
      let ptr := QTS_GetUndefined
      let (w1, lid) := w.newLifetime ptr .noDisposer none
      .ok (w1.setVm vmId { vm with undefCache := some lid }, lid)

/-- Translation of `typeof(handle)`: assert ownership, then ask the engine
for the type tag. -/
def vmTypeof (vmId : Nat) (w : World) (lid : Nat) : Except String String := do
  let () ← w.assertOwned vmId lid
  let _ ← w.ctxValue vmId
  let a ← w.ltValue lid
  .ok (QTS_Typeof w.engine a)

/-- Translation of `newNumber(num)`. -/
def newNumber (vmId : Nat) (w : World) (n : Int) : Except String (World × Nat) := do
  let _ ← w.ctxValue vmId
  let (e, ptr) := QTS_NewFloat64 w.engine n
  .ok (World.heapValueHandle { w with engine := e } vmId ptr)

/-- Translation of `getNumber(handle)`: assert ownership, then read the
float (NaN on conversion failure, collapsed to `0` in the integer model). -/
def getNumber (vmId : Nat) (w : World) (lid : Nat) : Except String Int := do
  let () ← w.assertOwned vmId lid
  let _ ← w.ctxValue vmId
  let a ← w.ltValue lid
  .ok (QTS_GetFloat64 w.engine a)

/-- Translation of `newString(str)`. -/
def newString (vmId : Nat) (w : World) (s : String) : Except String (World × Nat) := do
  let _ ← w.ctxValue vmId
  let (e, ptr) := QTS_NewString w.engine s
  .ok (World.heapValueHandle { w with engine := e } vmId ptr)

/-- Translation of `getString(handle)`: assert ownership, then read the
string. -/
def getString (vmId : Nat) (w : World) (lid : Nat) : Except String String := do
  let () ← w.assertOwned vmId lid
  let _ ← w.ctxValue vmId
  let a ← w.ltValue lid
  .ok (QTS_GetString w.engine a)

/-- Translation of `newObject(prototype?)`: when a prototype handle is
supplied it must be owned by this VM. -/
def newObject (vmId : Nat) (w : World) (proto : Option Nat) :
    Except String (World × Nat) := do
  match proto with
  | some p => do
      let () ← w.assertOwned vmId p
      let _ ← w.ctxValue vmId
      let pa ← w.ltValue p
      let (e, ptr) := QTS_NewObjectProto w.engine pa
      .ok (World.heapValueHandle { w with engine := e } vmId ptr)
  | none => do
      let _ ← w.ctxValue vmId
      let (e, ptr) := QTS_NewObject w.engine
      .ok (World.heapValueHandle { w with engine := e } vmId ptr)

/-- Translation of `newFunction(name, fn)`: allocate a fresh callback id,
store the implementation tag in the VM's callback table, build the scratch
numeric id handle, ask the engine for a native-callable value, then release
the scratch handle's block through the module allocator (not through
`dispose`). -/
def newFunction (vmId : Nat) (w : World) (name : String) (fnTag : Nat) :
    Except String (World × Nat) := do
  let vm ← w.getVm vmId
  let fnId := vm.fnNextId + 1
  let w := w.setVm vmId
    { vm with fnNextId := fnId, fnMap := (Int.ofNat fnId, fnTag) :: vm.fnMap }
  let (w, fnIdHandle) ← newNumber vmId w (Int.ofNat fnId)
  let _ ← w.ctxValue vmId
  let fnIdPtr ← w.ltValue fnIdHandle
  let (e, ptr) := QTS_NewFunction w.engine fnIdPtr name
  let (w, funcHandle) := World.heapValueHandle { w with engine := e } vmId ptr
  let fnIdPtr2 ← w.ltValue fnIdHandle
  let w := { w with engine := w.engine.freeHostBlock fnIdPtr2,
                        log := w.log ++ [Event.freeHostMemE fnIdPtr2] }
  .ok (w, funcHandle)

/-- Translation of the shared ternary `typeof key === 'string' ?
this.newString(key) : key` used by the property operations. -/
def toQuickJSKey (vmId : Nat) (w : World) (key : Key) : Except String (World × Nat) :=
  match key with
  | .str s => newString vmId w s
  | .handle k => pure (w, k)

/-- Translation of the shared trailing `if (typeof key === 'string')
quickJSKey.dispose()` of the property operations. -/
def keyCleanup (w : World) (key : Key) (quickJSKey : Nat) : Except String World :=
  match key with
  | .str _ => w.ltDispose quickJSKey
  | .handle _ => .ok w

/-- Translation of `getProp(handle, key)`: convert a string key into a
transient string handle, fetch the property, wrap the result, and dispose
the transient key handle.  The source performs no ownership check here. -/
def getProp (vmId : Nat) (w : World) (lid : Nat) (key : Key) :
    Except String (World × Nat) := do
  let (w, quickJSKey) ← toQuickJSKey vmId w key
  let _ ← w.ctxValue vmId
  let ha ← w.ltValue lid
  let ka ← w.ltValue quickJSKey
  let (e, ptr) := QTS_GetProp w.engine ha ka
  let (w, result) := World.heapValueHandle { w with engine := e } vmId ptr
  let w ← keyCleanup w key quickJSKey
  .ok (w, result)

/-- Translation of `setProp(handle, key, value)`.  The source performs no
ownership check here. -/
def setProp (vmId : Nat) (w : World) (lid : Nat) (key : Key) (valueLid : Nat) :
    Except String World := do
  let (w, quickJSKey) ← toQuickJSKey vmId w key
  let _ ← w.ctxValue vmId
  let ha ← w.ltValue lid
  let ka ← w.ltValue quickJSKey
  let va ← w.ltValue valueLid
  let w := { w with engine := QTS_SetProp w.engine ha ka va }
  keyCleanup w key quickJSKey

/-- Descriptor argument of `defineProp`: optional value handle, optional
getter/setter host implementations (function name plus implementation tag),
and optional flags. -/
structure VmPropertyDescriptor where
  value : Option Nat
  get : Option (String × Nat)
  set : Option (String × Nat)
  enumerable : Option Bool
  configurable : Option Bool

/-- Translation of `descriptor.value || this.undefined` (a handle is always
truthy). -/
def descriptorValue (vmId : Nat) (w : World) (o : Option Nat) :
    Except String (World × Nat) :=
  match o with
  | some v => pure (w, v)
  | none => vmUndefined vmId w

/-- Translation of `descriptor.get ? this.newFunction(...) : this.undefined`
(and likewise for `set`). -/
def descriptorAccessor (vmId : Nat) (w : World) (o : Option (String × Nat)) :
    Except String (World × Nat) :=
  match o with
  | some nt => newFunction vmId w nt.1 nt.2
  | none => vmUndefined vmId w

/-- Translation of `defineProp(handle, key, descriptor)`: transient key
conversion, defaulting of value and accessors to `undefined`, accessor
wrapping via `newFunction`, then the engine's define primitive.  The source
performs no ownership check here. -/
def defineProp (vmId : Nat) (w : World) (lid : Nat) (key : Key)
    (d : VmPropertyDescriptor) : Except String World := do
  let (w, quickJSKey) ← toQuickJSKey vmId w key
  let (w, value) ← descriptorValue vmId w d.value
  let configurable := (d.configurable.map (fun b => b)).getD false
  let enumerable := (d.enumerable.map (fun b => b)).getD false
  let hasValue := d.value.isSome
  let (w, getH) ← descriptorAccessor vmId w d.get
  let (w, setH) ← descriptorAccessor vmId w d.set
  let _ ← w.ctxValue vmId
  let ha ← w.ltValue lid
  let ka ← w.ltValue quickJSKey
  let va ← w.ltValue value
  let ga ← w.ltValue getH
  let sa ← w.ltValue setH
  let w := { w with
    engine := QTS_DefineProp w.engine ha ka va ga sa configurable enumerable hasValue }
  keyCleanup w key quickJSKey

/-- Translation of `toPointerArray(handleArray)`: read every handle's raw
address, copy them into a fresh host-memory block, and wrap the block in a
lifetime whose disposer frees it (no owner tag). -/
def toPointerArray (w : World) (lids : List Nat) : Except String (World × Nat) := do
  let ptrs ← lids.mapM w.ltValue
  let (e, ptr) := w.engine.mallocPtrArray ptrs
  .ok (World.newLifetime { w with engine := e } ptr .freeHostMem none)

/-- Result of `callFunction`/`evalCode`: a value handle or an error handle. -/
inductive VmCallResult where
  | value (lid : Nat)
  | error (lid : Nat)
  deriving Repr, DecidableEq

/-- Translation of `callFunction(func, thisVal, ...args)`: marshal the
arguments into a pointer array, invoke the engine call primitive, dispose
the pointer array, resolve the exception state of the raw result, and on
exception free the raw result and wrap the exception as `error`; otherwise
wrap the raw result as `value`. -/
def callFunction (vmId : Nat) (w : World) (func thisVal : Nat) (args : List Nat) :
    Except String (World × VmCallResult) := do
  let (w, argsArrayLt) ← toPointerArray w args
  let ctx ← w.ctxValue vmId
  let fa ← w.ltValue func
  let ta ← w.ltValue thisVal
  let aa ← w.ltValue argsArrayLt
  let (e, resultPtr) := QTS_Call w.engine ctx fa ta args.length aa
  let w ← World.ltDispose { w with engine := e } argsArrayLt
  let (e2, errorPtr) := QTS_ResolveException w.engine ctx resultPtr
  let w := { w with engine := e2 }
  if errorPtr ≠ 0 then
    let w := { w with engine := QTS_FreeValuePointer w.engine resultPtr,
                          log := w.log ++ [Event.freeValue resultPtr] }
    let (w, h) := w.heapValueHandle vmId errorPtr
    .ok (w, .error h)
  else
    let (w, h) := w.heapValueHandle vmId resultPtr
    .ok (w, .value h)

/-- Translation of `evalCode(code)`: the engine eval primitive followed by
the same exception-resolution protocol as `callFunction`. -/
def evalCode (vmId : Nat) (w : World) (code : String) :
    Except String (World × VmCallResult) := do
  let ctx ← w.ctxValue vmId
  let (e, resultPtr) := QTS_Eval w.engine ctx code
  let w := { w with engine := e }
  let (e2, errorPtr) := QTS_ResolveException w.engine ctx resultPtr
  let w := { w with engine := e2 }
  if errorPtr ≠ 0 then
    let w := { w with engine := QTS_FreeValuePointer w.engine resultPtr,
                          log := w.log ++ [Event.freeValue resultPtr] }
    let (w, h) := w.heapValueHandle vmId errorPtr
    .ok (w, .error h)
  else
    let (w, h) := w.heapValueHandle vmId resultPtr
    .ok (w, .value h)

/-- Translation of `dump(handle)`: strings, numbers and undefined convert
directly; anything else goes through engine serialization plus structured
parsing (`QTS_Dump` composed with `JSON.parse`, modelled from the spec as
recovering the engine value). -/
def dump (vmId : Nat) (w : World) (lid : Nat) : Except String EValue := do
  let ty ← vmTypeof vmId w lid
  if ty == "string" then do
    let s ← getString vmId w lid
    .ok (.str s)
  else if ty == "number" then do
    let n ← getNumber vmId w lid
    .ok (.num n)
  else if ty == "undefined" then
    .ok .undefined
  else do
    let _ ← w.ctxValue vmId
    let a ← w.ltValue lid
    .ok (w.engine.read a)

/-- Host-level error raised by `unwrapResult` on the error path: either a
reconstructed `Error` host object (optional `name` override plus `message`)
or the dumped value thrown verbatim. -/
inductive HostThrown where
  | hostError (name : Option String) (message : String)
  | raw (v : EValue)
  deriving Repr, DecidableEq

/-- String stored under `message` when the dumped value is an object whose
`message` field is a string. -/
def messageOf : EValue → Option String
  | .obj props =>
      match props.lookup "message" with
      | some (.str m) => some m
      | _ => none
  | _ => none

/-- String stored under `name` when the dumped value is an object whose
`name` field is a string. -/
def nameOf : EValue → Option String
  | .obj props =>
      match props.lookup "name" with
      | some (.str n) => some n
      | _ => none
  | _ => none

/-- Whether the dumped value satisfies the source's error-shape test:
`dumped && typeof dumped === 'object' && typeof dumped.message === 'string'`. -/
def errorShaped (v : EValue) : Bool :=
  v.truthy && (match v with | .obj _ => true | _ => false) && (messageOf v).isSome

/-- Translation of `unwrapResult(result)`: return the value handle on
success; on error dump the error handle, dispose it, and raise either a
reconstructed host error (when the dump is error-shaped) or the dumped
value verbatim. -/
def unwrapResult (vmId : Nat) (w : World) (res : VmCallResult) :
    Except String (World × Except HostThrown Nat) :=
  match res with
  | .error lid => do
      let dumped ← dump vmId w lid
      let w ← w.ltDispose lid
      if errorShaped dumped then
        .ok (w, .error (.hostError (nameOf dumped) ((messageOf dumped).getD "")))
      else
        .ok (w, .error (.raw dumped))
  | .value lid => .ok (w, .ok lid)

/-- Translation of `QuickJSVm.dispose()`: dispose every still-alive
auxiliary lifetime, then the context lifetime, then the runtime lifetime. -/
def vmDispose (vmId : Nat) (w : World) : Except String World := do
  let vm ← w.getVm vmId
  let w ← vm.auxLts.foldlM
    (fun w lid => if w.ltAlive lid then w.ltDispose lid else .ok w) w
  let w ← w.ltDispose vm.ctxLt
  w.ltDispose vm.rtLt

/-- Translation of `QuickJS.createVm()`: allocate a runtime, then a context
on it, wrap both in lifetimes (the context disposer removes the vm-table
entry before freeing the context), register the context address in the
runtime manager's VM table, and return the new facade. -/
def createVm (w : World) : World × Nat :=
  let (e, rtPtr) := w.engine.allocRaw
  let (e, ctxPtr) := e.allocRaw
  let w := { w with engine := e }
  let (w, rtLt) := w.newLifetime rtPtr .rtDisposer none
  let (w, ctxLt) := w.newLifetime ctxPtr .ctxDisposer none
  let vmId := w.nextVm
  ({ w with vms := (vmId, ⟨ctxLt, rtLt, none, none, [], 0, []⟩) :: w.vms,
            nextVm := vmId + 1,
            vmMap := (ctxPtr, vmId) :: w.vmMap }, vmId)

/-- Value thrown inside the dispatch try-block: an existing handle (a thrown
`{error}` result or a handle-typed host exception) or a host `Error` object
with optional `name`/`message`/`stack` fields. -/
inductive Thrown where
  | handleE (lid : Nat)
  | jsError (name message stack : Option String)

/-- Host `Error` raised by an internal lifetime misuse (its message is the
thrown string). -/
def strErr (m : String) : Thrown := .jsError (some "Error") (some m) none

/-- Return value of a host function implementation as the dispatch inspects
it: no value, a bare handle, a `{value}` result, an `{error}` result, or a
thrown exception. -/
inductive HostRet where
  | nothing
  | handleRet (lid : Nat)
  | valueRet (lid : Nat)
  | errorRet (lid : Nat)
  | threw (t : Thrown)

/-- Semantics of registered host implementations: an implementation tag plus
the `this` handle and argument handles yield a possibly-mutated world and a
return behavior.  Quantifying over this function quantifies over all host
implementations. -/
def Interp : Type := Nat → Nat → List Nat → World → World × HostRet

/-- Translation of `errorToHandle(error)`: pass an existing handle through
unchanged; otherwise create a fresh engine error object and populate its
`name` and `message` fields from the host error (each through a transient
string handle), the `stack` field being stringified and released without
assignment. -/
def errorToHandle (vmId : Nat) (w : World) (err : Thrown) :
    Except String (World × Nat) :=
  match err with
  | .handleE lid => .ok (w, lid)
  | .jsError name msg stack => do
      let _ ← w.ctxValue vmId
      let (e, ptr) := QTS_NewError w.engine
      let (w, errorHandle) := World.heapValueHandle { w with engine := e } vmId ptr
      let w ← match name with
        | some n => do
            let (w, h) ← newString vmId w n
            let w ← setProp vmId w errorHandle (.str "name") h
            w.ltDispose h
        | none => pure w
      let w ← match msg with
        | some m => do
            let (w, h) ← newString vmId w m
            let w ← setProp vmId w errorHandle (.str "message") h
            w.ltDispose h
        | none => pure w
      let w ← match stack with
        | some st => do
            let (w, h) ← newString vmId w st
            w.ltDispose h
        | none => pure w
      .ok (w, errorHandle)

/-- Argument-handle creation loop of the dispatch: one transient borrowed
lifetime per argument pointer, owned by this VM, in argument order. -/
def mkArgHandles (w : World) (vmId : Nat) (argv : Addr) (argc : Nat) :
    World × List Nat :=
  (List.range argc).foldl
    (fun acc i =>
      let ptr := QTS_ArgvGet acc.1.engine argv i
      let (w, lid) := acc.1.newLifetime ptr .noDisposer (some vmId)
      (w, acc.2 ++ [lid]))
    (w, [])

/-- Try-block of the dispatch: run the host implementation, then interpret
its return value — nothing keeps the neutral result; an `{error}` result is
thrown; a bare handle or `{value}` result is duplicate-referenced so it
survives argument disposal, after which the host-side handle is disposed. -/
def dispatchTry (interp : Interp) (vmId : Nat) (tag : Nat)
    (thisHandle : Nat) (argHandles : List Nat) (w : World) :
    World × Except Thrown Addr :=
  let (w, result) := interp tag thisHandle argHandles w
  match result with
  | .nothing => (w, .ok 0)
  | .errorRet e => (w, .error (.handleE e))
  | .threw t => (w, .error t)
  | .handleRet h | .valueRet h =>
      match w.ctxValue vmId with
      | .error m => (w, .error (strErr m))
      | .ok _ =>
          match w.ltValue h with
          | .error m => (w, .error (strErr m))
          | .ok hv =>
              let (e, dupPtr) := QTS_DupValue w.engine hv
              let w := { w with engine := e }
              match w.ltDispose h with
              | .error m => (w, .error (strErr m))
              | .ok w => (w, .ok dupPtr)

/-- Translation of `QuickJSVm.cToHostCallbackFunction`: check the context
address, read the callback id from the function data, look up the
implementation, wrap `this` and the arguments in transient borrowed
handles, run the try/catch (a caught exception is converted to an engine
error and signalled through the throw primitive), and finally dispose every
still-alive `this`/argument handle before returning the owned result
pointer. -/
def cToHostCallbackFunction (interp : Interp) (vmId : Nat) (w : World)
    (ctx this_ptr : Addr) (argc : Nat) (argv : Addr) (fn_data : Addr) :
    Except String (World × Addr) := do
  let vm ← w.getVm vmId
  let myCtx ← w.ltValue vm.ctxLt
  if ctx ≠ myCtx then
    .error "QuickJSVm instance received C -> JS call with mismatched ctx"
  else
    let fnId := QTS_GetFloat64 w.engine fn_data
    match vm.fnMap.lookup fnId with
    | none => .error ("QuickJSVm had no callback with id " ++ toString fnId)
    | some tag => do
        let (w, thisHandle) := w.newLifetime this_ptr .noDisposer (some vmId)
        let (w, argHandles) := mkArgHandles w vmId argv argc
        let (w, tryRes) := dispatchTry interp vmId tag thisHandle argHandles w
        let (w, ownedResultPtr) ←
          match tryRes with
          | .ok ptr => pure (w, ptr)
          | .error t => do
              let (w, errorHandle) ← errorToHandle vmId w t
              let _ ← w.ctxValue vmId
              let ev ← w.ltValue errorHandle
              let (e, sentinel) := QTS_Throw w.engine ev
              let w := { w with engine := e }
              let w ← w.ltDispose errorHandle
              pure (w, sentinel)
        let w ← if w.ltAlive thisHandle then w.ltDispose thisHandle else pure w
        let w ← argHandles.foldlM
          (fun w a => if w.ltAlive a then w.ltDispose a else pure w) w
        .ok (w, ownedResultPtr)

/-- Translation of `QuickJS.cToHostCallbackFunction` (the process-wide
trampoline): look up the owning VM by context address and forward to its
dispatch; any exception — including the missing-VM error — is caught at
this outermost layer, reported via `console.error`, and converted into the
null/neutral result. -/
def quickJSCToHostCallback (interp : Interp) (w : World)
    (ctx this_ptr : Addr) (argc : Nat) (argv : Addr) (fn_data : Addr) :
    World × Addr :=
  let inner : Except String (World × Addr) :=
    match w.vmMap.lookup ctx with
    | none =>
        let fn_name := QTS_GetString w.engine fn_data
        .error ("QuickJSVm(ctx = " ++ toString ctx ++ ") not found for C function call "
          ++ fn_name)
    | some vmId => cToHostCallbackFunction interp vmId w ctx this_ptr argc argv fn_data
  match inner with
  | .ok (w, ptr) => (w, ptr)
  | .error _ => ({ w with log := w.log ++ [.consoleError] }, 0)

/-- Host implementation that returns no value (used by concrete runs). -/
def interpNothing : Interp := fun _ _ _ w => (w, .nothing)

/-- Empty bridge state used by concrete runs: empty engine (fresh addresses
start at 2, past the null address 0 and the undefined constant 1), no
lifetimes, no VMs. -/
def w0empty : World :=
  ⟨⟨[], [], [], [], [], [], 2⟩, [], 0, [], 0, [], []⟩

/-- Reduction of a successful bind in the `Except` monad (proof helper). -/
theorem exceptBind_ok {ε α β : Type} (a : α) (f : α → Except ε β) :
    (Except.ok a >>= f) = f a := rfl

/-- Reduction of a failed bind in the `Except` monad (proof helper). -/
theorem exceptBind_err {ε α β : Type} (e : ε) (f : α → Except ε β) :
    ((Except.error e : Except ε α) >>= f) = .error e := rfl

/-- C10: the ownership check accepts every handle whose owner tag is absent
(for example the memoized static `undefined` handle), on every VM; its
violation branch fires exactly when the handle carries an owner tag
different from the checking VM.  The `undefined` getter produces — and
memoizes — a handle with no owner tag that every VM's check accepts. -/
theorem c10_unowned_handle_accepted (w : World) (vmId lid : Nat) :
    (w.ltOwner lid = none → w.assertOwned vmId lid = .ok ()) ∧
    (w.assertOwned vmId lid = .error differentVmMsg ↔
      ∃ o, w.ltOwner lid = some o ∧ o ≠ vmId) ∧
    (∀ vm, w.vms.lookup vmId = some vm → vm.undefCache = none →
      ∃ w' lid', vmUndefined vmId w = .ok (w', lid') ∧
        w'.ltOwner lid' = none ∧
        (∀ vmB, w'.assertOwned vmB lid' = .ok ())) ∧
    (∀ vm lid0, w.vms.lookup vmId = some vm → vm.undefCache = some lid0 →
      vmUndefined vmId w = .ok (w, lid0)) := by
  refine ⟨?_, ?_, ?_, ?_⟩
  · intro h
    simp [World.assertOwned, h]
  · constructor
    · intro h
      unfold World.assertOwned at h
      cases ho : w.ltOwner lid with
      | none => simp [ho] at h
      | some o =>
          simp only [ho] at h
          by_cases he : o = vmId
          · simp [he] at h
          · exact ⟨o, rfl, he⟩
    · rintro ⟨o, ho, hne⟩
      simp [World.assertOwned, ho, hne]
  · intro vm hvm hcache
    simp only [vmUndefined, World.getVm, hvm, exceptBind_ok, hcache]
    refine ⟨_, _, rfl, ?_, ?_⟩
    · simp [World.ltOwner, World.ltRec, World.setVm, World.newLifetime, List.lookup]
    · intro vmB
      simp [World.assertOwned, World.ltOwner, World.ltRec, World.setVm,
        World.newLifetime, List.lookup]
  · intro vm lid0 hvm hcache
    simp only [vmUndefined, World.getVm, hvm, exceptBind_ok, hcache]

/-- Witness for C10 at a concrete state: a world with one VM whose context
and runtime lifetimes exist and whose `undefined` handle is not yet
memoized; the getter yields an unowned handle accepted by an unrelated VM
id, and a handle with no owner is accepted while a foreign-owned one is
rejected. -/
theorem c10_unowned_handle_accepted_witness :
    (∃ w' lid',
      vmUndefined 0 { w0empty with vms := [(0, ⟨0, 1, none, none, [], 0, []⟩)] }
        = .ok (w', lid') ∧
      w'.ltOwner lid' = none ∧
      (∀ vmB, w'.assertOwned vmB lid' = .ok ())) ∧
    ({ w0empty with lts := [(0, ⟨7, some 1, .noDisposer, true, 0⟩)] }.assertOwned 0 0
      = .error differentVmMsg) := by
  constructor
  · exact (c10_unowned_handle_accepted
      { w0empty with vms := [(0, ⟨0, 1, none, none, [], 0, []⟩)] } 0 0).2.2.1
      ⟨0, 1, none, none, [], 0, []⟩ rfl rfl
  · exact (c10_unowned_handle_accepted
      { w0empty with lts := [(0, ⟨7, some 1, .noDisposer, true, 0⟩)] } 0 0).2.1.2
      ⟨1, rfl, by decide⟩

/-- C4: the trampoline never lets an exception cross the native boundary.
When no VM is registered for the supplied context address the call is
reported (a `console.error` event) and the null result 0 is returned; when
the routed dispatch raises any exception the same logged null result is
produced; and when the dispatch succeeds its result is returned unchanged.
The trampoline's type is total: every invocation returns a plain result. -/
theorem c4_trampoline_catches_all (interp : Interp) (w : World)
    (ctx this_ptr : Addr) (argc : Nat) (argv fn_data : Addr) :
    (w.vmMap.lookup ctx = none →
      quickJSCToHostCallback interp w ctx this_ptr argc argv fn_data
        = ({ w with log := w.log ++ [.consoleError] }, 0)) ∧
    (∀ vmId, w.vmMap.lookup ctx = some vmId →
      (∀ e, cToHostCallbackFunction interp vmId w ctx this_ptr argc argv fn_data
          = .error e →
        quickJSCToHostCallback interp w ctx this_ptr argc argv fn_data
          = ({ w with log := w.log ++ [.consoleError] }, 0)) ∧
      (∀ w' p, cToHostCallbackFunction interp vmId w ctx this_ptr argc argv fn_data
          = .ok (w', p) →
        quickJSCToHostCallback interp w ctx this_ptr argc argv fn_data = (w', p))) := by
  constructor
  · intro h
    simp [quickJSCToHostCallback, h]
  · intro vmId hvm
    constructor
    · intro e he
      simp [quickJSCToHostCallback, hvm, he]
    · intro w' p hok
      simp [quickJSCToHostCallback, hvm, hok]

/-- Witness for C4 at a concrete state: in the empty world no VM is
registered for context address 5, so the trampoline logs the failure and
returns 0. -/
theorem c4_trampoline_catches_all_witness :
    quickJSCToHostCallback interpNothing w0empty 5 0 0 0 0
      = ({ w0empty with log := [.consoleError] }, 0) :=
  (c4_trampoline_catches_all interpNothing w0empty 5 0 0 0 0).1 rfl

/-- Well-formedness of the lifetime store: every stored lifetime id is below
the allocation cursor (true of every state reachable from an empty store). -/
def World.ltWF (w : World) : Prop :=
  ∀ lid r, w.lts.lookup lid = some r → lid < w.nextLt

/-- A successful `value` read means a record exists, is alive, and holds the
returned address. -/
theorem ltValue_ok_iff (w : World) (lid : Nat) (a : Addr) :
    w.ltValue lid = .ok a ↔
      ∃ r, w.lts.lookup lid = some r ∧ r.alive = true ∧ r.addr = a := by
  unfold World.ltValue World.ltRec
  cases h : w.lts.lookup lid with
  | none =>
      constructor
      · intro hc; cases hc
      · rintro ⟨r, hr, _⟩; cases hr
  | some r =>
      cases ha : r.alive with
      | true =>
          simp only [ha, if_true]
          constructor
          · intro hc
            cases hc
            exact ⟨r, rfl, ha, rfl⟩
          · rintro ⟨r', hr', _, haddr⟩
            cases hr'
            rw [haddr]
      | false =>
          simp only [ha, Bool.false_eq_true, if_false]
          constructor
          · intro hc; cases hc
          · rintro ⟨r', hr', hal, _⟩
            cases hr'
            exact absurd hal (by simp [ha])

/-- Allocating a new lifetime does not change the record of a distinct
existing lifetime id. -/
theorem lookup_newLifetime_ne (w : World) (a : Addr) (d : DisposerK)
    (o : Option Nat) (lid : Nat) (hne : lid ≠ w.nextLt) :
    (w.newLifetime a d o).1.lts.lookup lid = w.lts.lookup lid := by
  have hb : (lid == w.nextLt) = false := beq_eq_false_iff_ne.mpr hne
  simp [World.newLifetime, List.lookup, hb]

/-- `value` reads of distinct existing lifetimes are unchanged by a new
allocation. -/
theorem ltValue_newLifetime_ne (w : World) (a : Addr) (d : DisposerK)
    (o : Option Nat) (lid : Nat) (hne : lid ≠ w.nextLt) :
    (w.newLifetime a d o).1.ltValue lid = w.ltValue lid := by
  unfold World.ltValue World.ltRec
  rw [lookup_newLifetime_ne w a d o lid hne]

/-- The freshly allocated lifetime's record. -/
theorem lookup_newLifetime_self (w : World) (a : Addr) (d : DisposerK)
    (o : Option Nat) :
    (w.newLifetime a d o).1.lts.lookup (w.newLifetime a d o).2
      = some ⟨a, o, d, true, 0⟩ := by
  simp [World.newLifetime, List.lookup]

/-- Evaluation of `getString` from facts about the current state. -/
theorem getString_eq (w : World) (vmId lid : Nat) (vm : Vm) (c a : Addr)
    (hno : w.assertOwned vmId lid = .ok ())
    (hvm : w.vms.lookup vmId = some vm)
    (hctx : w.ltValue vm.ctxLt = .ok c)
    (hval : w.ltValue lid = .ok a) :
    getString vmId w lid = .ok (QTS_GetString w.engine a) := by
  simp [getString, hno, World.ctxValue, World.getVm, hvm, hctx, hval, exceptBind_ok]

/-- Evaluation of `getNumber` from facts about the current state. -/
theorem getNumber_eq (w : World) (vmId lid : Nat) (vm : Vm) (c a : Addr)
    (hno : w.assertOwned vmId lid = .ok ())
    (hvm : w.vms.lookup vmId = some vm)
    (hctx : w.ltValue vm.ctxLt = .ok c)
    (hval : w.ltValue lid = .ok a) :
    getNumber vmId w lid = .ok (QTS_GetFloat64 w.engine a) := by
  simp [getNumber, hno, World.ctxValue, World.getVm, hvm, hctx, hval, exceptBind_ok]

/-- C9: round-trip identities on a single VM.  Under a well-formed lifetime
store, with the VM present and its context lifetime readable,
`getString (newString s)` returns `s` and `getNumber (newNumber n)` returns
`n` (host numbers are modelled as the exactly-representable integers, per
the spec's "for representable n"). -/
theorem c9_round_trip (w : World) (vmId : Nat) (vm : Vm) (s : String) (n : Int)
    (hwf : w.ltWF)
    (hvm : w.vms.lookup vmId = some vm)
    (c : Addr) (hctx : w.ltValue vm.ctxLt = .ok c) :
    (∀ wOut h, newString vmId w s = .ok (wOut, h) → getString vmId wOut h = .ok s) ∧
    (∀ wOut h, newNumber vmId w n = .ok (wOut, h) → getNumber vmId wOut h = .ok n) := by
  have hctxlt : vm.ctxLt < w.nextLt := by
    rcases (ltValue_ok_iff w vm.ctxLt c).1 hctx with ⟨r, hr, _, _⟩
    exact hwf vm.ctxLt r hr
  constructor
  · intro wOut h heq
    simp only [newString, World.ctxValue, World.getVm, hvm, exceptBind_ok, hctx,
      World.heapValueHandle, Except.ok.injEq] at heq
    have hw2 : (World.newLifetime { w with engine := (QTS_NewString w.engine s).1 }
        (QTS_NewString w.engine s).2 (.freeJSValue vmId) (some vmId)).1 = wOut :=
      congrArg Prod.fst heq
    have hh2 : (World.newLifetime { w with engine := (QTS_NewString w.engine s).1 }
        (QTS_NewString w.engine s).2 (.freeJSValue vmId) (some vmId)).2 = h :=
      congrArg Prod.snd heq
    subst hw2
    subst hh2
    have hown : World.assertOwned
        (World.newLifetime { w with engine := (QTS_NewString w.engine s).1 }
          (QTS_NewString w.engine s).2 (.freeJSValue vmId) (some vmId)).1 vmId
        (World.newLifetime { w with engine := (QTS_NewString w.engine s).1 }
          (QTS_NewString w.engine s).2 (.freeJSValue vmId) (some vmId)).2
        = .ok () := by
      unfold World.assertOwned World.ltOwner World.ltRec
      rw [lookup_newLifetime_self]
      simp
    have hctx2 : World.ltValue
        (World.newLifetime { w with engine := (QTS_NewString w.engine s).1 }
          (QTS_NewString w.engine s).2 (.freeJSValue vmId) (some vmId)).1 vm.ctxLt
        = .ok c := by
      rw [ltValue_newLifetime_ne { w with engine := (QTS_NewString w.engine s).1 }
        (QTS_NewString w.engine s).2 (.freeJSValue vmId) (some vmId) vm.ctxLt
        (Nat.ne_of_lt hctxlt)]
      exact hctx
    have hval : World.ltValue
        (World.newLifetime { w with engine := (QTS_NewString w.engine s).1 }
          (QTS_NewString w.engine s).2 (.freeJSValue vmId) (some vmId)).1
        (World.newLifetime { w with engine := (QTS_NewString w.engine s).1 }
          (QTS_NewString w.engine s).2 (.freeJSValue vmId) (some vmId)).2
        = .ok (QTS_NewString w.engine s).2 := by
      rw [ltValue_ok_iff]
      exact ⟨_, lookup_newLifetime_self _ _ _ _, rfl, rfl⟩
    rw [getString_eq _ vmId _ vm c _ hown hvm hctx2 hval]
    simp [World.newLifetime, QTS_GetString, QTS_NewString, Engine.alloc,
      Engine.read, List.lookup, EValue.toKeyString]
  · intro wOut h heq
    simp only [newNumber, World.ctxValue, World.getVm, hvm, exceptBind_ok, hctx,
      World.heapValueHandle, Except.ok.injEq] at heq
    have hw2 : (World.newLifetime { w with engine := (QTS_NewFloat64 w.engine n).1 }
        (QTS_NewFloat64 w.engine n).2 (.freeJSValue vmId) (some vmId)).1 = wOut :=
      congrArg Prod.fst heq
    have hh2 : (World.newLifetime { w with engine := (QTS_NewFloat64 w.engine n).1 }
        (QTS_NewFloat64 w.engine n).2 (.freeJSValue vmId) (some vmId)).2 = h :=
      congrArg Prod.snd heq
    subst hw2
    subst hh2
    have hown : World.assertOwned
        (World.newLifetime { w with engine := (QTS_NewFloat64 w.engine n).1 }
          (QTS_NewFloat64 w.engine n).2 (.freeJSValue vmId) (some vmId)).1 vmId
        (World.newLifetime { w with engine := (QTS_NewFloat64 w.engine n).1 }
          (QTS_NewFloat64 w.engine n).2 (.freeJSValue vmId) (some vmId)).2
        = .ok () := by
      unfold World.assertOwned World.ltOwner World.ltRec
      rw [lookup_newLifetime_self]
      simp
    have hctx2 : World.ltValue
        (World.newLifetime { w with engine := (QTS_NewFloat64 w.engine n).1 }
          (QTS_NewFloat64 w.engine n).2 (.freeJSValue vmId) (some vmId)).1 vm.ctxLt
        = .ok c := by
      rw [ltValue_newLifetime_ne { w with engine := (QTS_NewFloat64 w.engine n).1 }
        (QTS_NewFloat64 w.engine n).2 (.freeJSValue vmId) (some vmId) vm.ctxLt
        (Nat.ne_of_lt hctxlt)]
      exact hctx
    have hval : World.ltValue
        (World.newLifetime { w with engine := (QTS_NewFloat64 w.engine n).1 }
          (QTS_NewFloat64 w.engine n).2 (.freeJSValue vmId) (some vmId)).1
        (World.newLifetime { w with engine := (QTS_NewFloat64 w.engine n).1 }
          (QTS_NewFloat64 w.engine n).2 (.freeJSValue vmId) (some vmId)).2
        = .ok (QTS_NewFloat64 w.engine n).2 := by
      rw [ltValue_ok_iff]
      exact ⟨_, lookup_newLifetime_self _ _ _ _, rfl, rfl⟩
    rw [getNumber_eq _ vmId _ vm c _ hown hvm hctx2 hval]
    simp [World.newLifetime, QTS_GetFloat64, QTS_NewFloat64, Engine.alloc,
      Engine.read, List.lookup]

/-- Concrete single-VM state for round-trip runs: one VM (id 0) whose context
lifetime (id 0) wraps address 100 and is alive. -/
def w9 : World :=
  { w0empty with
    lts := [(0, ⟨100, none, .ctxDisposer, true, 0⟩)],
    nextLt := 1,
    vms := [(0, ⟨0, 0, none, none, [], 0, []⟩)] }

/-- The concrete round-trip state has a well-formed lifetime store. -/
theorem w9_wf : w9.ltWF := by
  intro lid r h
  rcases eq_or_ne lid 0 with h0 | h0
  · rw [h0]
    decide
  · rw [show List.lookup lid w9.lts = none from by
      simp [w9, w0empty, List.lookup, beq_eq_false_iff_ne.mpr h0]] at h
    cases h

/-- Witness for C9 at a concrete state: on VM 0 of `w9`, the string "hello"
and the number 42 survive their round trips. -/
theorem c9_round_trip_witness :
    ∃ wOut h wOut2 h2,
      newString 0 w9 "hello" = .ok (wOut, h) ∧ getString 0 wOut h = .ok "hello" ∧
      newNumber 0 w9 42 = .ok (wOut2, h2) ∧ getNumber 0 wOut2 h2 = .ok 42 := by
  have T := c9_round_trip w9 0 ⟨0, 0, none, none, [], 0, []⟩ "hello" 42 w9_wf rfl 100 rfl
  exact ⟨_, _, _, _, rfl, T.1 _ _ rfl, rfl, T.2 _ _ rfl⟩

/-- Errors a facade operation can raise besides the ownership violation:
lifetime misuse ("Not alive") or the model-artifact dangling-VM error. -/
def benignErr (e : String) : Prop := e = "Not alive" ∨ e = "missing vm"

/-- A benign error is never the ownership-violation error. -/
theorem benignErr_ne (e : String) (h : benignErr e) : e ≠ differentVmMsg := by
  rcases h with rfl | rfl
  · intro hc
    exact absurd hc (by decide)
  · intro hc
    exact absurd hc (by decide)

/-- Case analysis on a failed `Except` bind (proof helper): the error comes
from the first action or from the continuation. -/
theorem bindE {ε α β : Type} (x : Except ε α) {f : α → Except ε β} {e : ε}
    {P : ε → Prop}
    (h : (x >>= f) = .error e)
    (hx : ∀ eIn, x = .error eIn → P eIn)
    (hf : ∀ a, f a = .error e → P e) : P e := by
  cases x with
  | error e2 =>
      rw [show ((Except.error e2 : Except ε α) >>= f) = (Except.error e2 : Except ε β)
        from rfl] at h
      cases h
      exact hx _ rfl
  | ok a => exact hf a h

/-- The `value` getter only ever raises "Not alive". -/
theorem ltValue_err {w : World} {lid : Nat} {e : String}
    (h : w.ltValue lid = .error e) : benignErr e := by
  unfold World.ltValue at h
  split at h
  · split at h
    · cases h
    · cases h
      exact .inl rfl
  · cases h
    exact .inl rfl

/-- The VM lookup only ever raises the dangling-VM artifact error. -/
theorem getVm_err {w : World} {vmId : Nat} {e : String}
    (h : w.getVm vmId = .error e) : benignErr e := by
  unfold World.getVm at h
  split at h
  · cases h
  · cases h
    exact .inr rfl

/-- `this.ctx.value` reads raise only benign errors. -/
theorem ctxValue_err {w : World} {vmId : Nat} {e : String}
    (h : w.ctxValue vmId = .error e) : benignErr e := by
  unfold World.ctxValue at h
  exact bindE _ h (fun eIn hIn => getVm_err hIn) (fun vm hv => ltValue_err hv)

/-- Disposer bodies raise only benign errors. -/
theorem runDisposer_err {w : World} {r : LtRec} {e : String}
    (h : runDisposer w r = .error e) : benignErr e := by
  unfold runDisposer at h
  split at h
  · cases h
  · exact bindE _ h (fun eIn hIn => ctxValue_err hIn) (fun a ha => by cases ha)
  · cases h
  · cases h
  · cases h

/-- `dispose()` raises only benign errors. -/
theorem ltDispose_err {w : World} {lid : Nat} {e : String}
    (h : w.ltDispose lid = .error e) : benignErr e := by
  unfold World.ltDispose at h
  split at h
  · cases h
    exact .inl rfl
  · split at h
    · cases h
      exact .inl rfl
    · exact bindE _ h (fun eIn hIn => runDisposer_err hIn) (fun a ha => by cases ha)

/-- `newString` raises only benign errors (it performs no ownership check). -/
theorem newString_err {vmId : Nat} {w : World} {s : String} {e : String}
    (h : newString vmId w s = .error e) : benignErr e := by
  unfold newString at h
  exact bindE _ h (fun eIn hIn => ctxValue_err hIn) (fun a ha => by cases ha)

/-- `newNumber` raises only benign errors (it performs no ownership check). -/
theorem newNumber_err {vmId : Nat} {w : World} {n : Int} {e : String}
    (h : newNumber vmId w n = .error e) : benignErr e := by
  unfold newNumber at h
  exact bindE _ h (fun eIn hIn => ctxValue_err hIn) (fun a ha => by cases ha)

/-- The `undefined` getter raises only benign errors. -/
theorem vmUndefined_err {vmId : Nat} {w : World} {e : String}
    (h : vmUndefined vmId w = .error e) : benignErr e := by
  unfold vmUndefined at h
  refine bindE _ h (fun eIn hIn => getVm_err hIn) (fun vm hv => ?_)
  split at hv
  · cases hv
  · cases hv

/-- `newFunction` raises only benign errors (it performs no ownership
check). -/
theorem newFunction_err {vmId : Nat} {w : World} {name : String} {tag : Nat}
    {e : String} (h : newFunction vmId w name tag = .error e) : benignErr e := by
  unfold newFunction at h
  refine bindE _ h (fun eIn hIn => getVm_err hIn) (fun vm hv => ?_)
  refine bindE _ hv (fun eIn hIn => newNumber_err hIn) (fun a ha => ?_)
  obtain ⟨w1, fnIdHandle⟩ := a
  refine bindE _ ha (fun eIn hIn => ctxValue_err hIn) (fun c hc => ?_)
  refine bindE _ hc (fun eIn hIn => ltValue_err hIn) (fun p hp => ?_)
  exact bindE _ hp (fun eIn hIn => ltValue_err hIn) (fun p2 hp2 => by cases hp2)

/-- Key conversion (string key or handle) raises only benign errors. -/
theorem toQuickJSKey_err {vmId : Nat} {w : World} {key : Key} {e : String}
    (h : toQuickJSKey vmId w key = .error e) : benignErr e := by
  unfold toQuickJSKey at h
  cases key with
  | str s => exact newString_err h
  | handle k => cases h

/-- Transient key cleanup raises only benign errors. -/
theorem keyCleanup_err {w : World} {key : Key} {k : Nat} {e : String}
    (h : keyCleanup w key k = .error e) : benignErr e := by
  unfold keyCleanup at h
  cases key with
  | str s => exact ltDispose_err h
  | handle k2 => cases h

/-- Descriptor-value defaulting raises only benign errors. -/
theorem descriptorValue_err {vmId : Nat} {w : World} {o : Option Nat} {e : String}
    (h : descriptorValue vmId w o = .error e) : benignErr e := by
  unfold descriptorValue at h
  cases o with
  | some v => cases h
  | none => exact vmUndefined_err h

/-- Accessor defaulting (`newFunction` or `undefined`) raises only benign
errors. -/
theorem descriptorAccessor_err {vmId : Nat} {w : World} {o : Option (String × Nat)}
    {e : String}
    (h : descriptorAccessor vmId w o = .error e) : benignErr e := by
  unfold descriptorAccessor at h
  cases o with
  | some p => exact newFunction_err h
  | none => exact vmUndefined_err h

/-- `getProp` raises only benign errors: in particular it never raises the
ownership-violation error — the source performs no ownership check there. -/
theorem getProp_err {vmId : Nat} {w : World} {lid : Nat} {key : Key} {e : String}
    (h : getProp vmId w lid key = .error e) : benignErr e := by
  unfold getProp at h
  refine bindE _ h (fun eIn hIn => toQuickJSKey_err hIn) (fun a ha => ?_)
  obtain ⟨w1, k1⟩ := a
  refine bindE _ ha (fun eIn hIn => ctxValue_err hIn) (fun c hc => ?_)
  refine bindE _ hc (fun eIn hIn => ltValue_err hIn) (fun p hp => ?_)
  refine bindE _ hp (fun eIn hIn => ltValue_err hIn) (fun p2 hp2 => ?_)
  exact bindE _ hp2 (fun eIn hIn => keyCleanup_err hIn) (fun p3 hp3 => by cases hp3)

/-- `setProp` raises only benign errors (no ownership check in the source). -/
theorem setProp_err {vmId : Nat} {w : World} {lid : Nat} {key : Key}
    {vLid : Nat} {e : String}
    (h : setProp vmId w lid key vLid = .error e) : benignErr e := by
  unfold setProp at h
  refine bindE _ h (fun eIn hIn => toQuickJSKey_err hIn) (fun a ha => ?_)
  obtain ⟨w1, k1⟩ := a
  refine bindE _ ha (fun eIn hIn => ctxValue_err hIn) (fun c hc => ?_)
  refine bindE _ hc (fun eIn hIn => ltValue_err hIn) (fun p hp => ?_)
  refine bindE _ hp (fun eIn hIn => ltValue_err hIn) (fun p2 hp2 => ?_)
  refine bindE _ hp2 (fun eIn hIn => ltValue_err hIn) (fun p3 hp3 => ?_)
  exact keyCleanup_err hp3

/-- `defineProp` raises only benign errors (no ownership check in the
source). -/
theorem defineProp_err {vmId : Nat} {w : World} {lid : Nat} {key : Key}
    {d : VmPropertyDescriptor} {e : String}
    (h : defineProp vmId w lid key d = .error e) : benignErr e := by
  unfold defineProp at h
  refine bindE _ h (fun eIn hIn => toQuickJSKey_err hIn) (fun a ha => ?_)
  obtain ⟨w1, k1⟩ := a
  refine bindE _ ha (fun eIn hIn => descriptorValue_err hIn) (fun b hb => ?_)
  obtain ⟨w2, v1⟩ := b
  refine bindE _ hb (fun eIn hIn => descriptorAccessor_err hIn) (fun g hg => ?_)
  obtain ⟨w3, g1⟩ := g
  refine bindE _ hg (fun eIn hIn => descriptorAccessor_err hIn) (fun st hst => ?_)
  obtain ⟨w4, s1⟩ := st
  refine bindE _ hst (fun eIn hIn => ctxValue_err hIn) (fun c hc => ?_)
  refine bindE _ hc (fun eIn hIn => ltValue_err hIn) (fun p1 hp1 => ?_)
  refine bindE _ hp1 (fun eIn hIn => ltValue_err hIn) (fun p2 hp2 => ?_)
  refine bindE _ hp2 (fun eIn hIn => ltValue_err hIn) (fun p3 hp3 => ?_)
  refine bindE _ hp3 (fun eIn hIn => ltValue_err hIn) (fun p4 hp4 => ?_)
  refine bindE _ hp4 (fun eIn hIn => ltValue_err hIn) (fun p5 hp5 => ?_)
  exact keyCleanup_err hp5

/-- List reads in the marshaling step raise only benign errors. -/
theorem mapM_ltValue_err {w : World} {lids : List Nat} {e : String}
    (h : lids.mapM w.ltValue = .error e) : benignErr e := by
  induction lids generalizing e with
  | nil => cases h
  | cons a as ih =>
      rw [List.mapM_cons] at h
      refine bindE _ h (fun eIn hIn => ltValue_err hIn) (fun v hv => ?_)
      refine bindE _ hv (fun eIn hIn => ih hIn) (fun vs hvs => ?_)
      cases hvs

/-- `toPointerArray` raises only benign errors. -/
theorem toPointerArray_err {w : World} {lids : List Nat} {e : String}
    (h : toPointerArray w lids = .error e) : benignErr e := by
  unfold toPointerArray at h
  exact bindE _ h (fun eIn hIn => mapM_ltValue_err hIn) (fun ps hps => by cases hps)

/-- A conditional whose branches both succeed never evaluates to an error
(proof helper). -/
theorem iteOk_ne_error {α : Type} {c : Prop} [Decidable c] {x y : α} {e : String}
    (h : (if c then (Except.ok x : Except String α) else .ok y) = .error e) :
    False := by
  by_cases hc : c
  · rw [if_pos hc] at h
    cases h
  · rw [if_neg hc] at h
    cases h

/-- `callFunction` raises only benign errors (no ownership check in the
source). -/
theorem callFunction_err {vmId : Nat} {w : World} {f t : Nat} {args : List Nat}
    {e : String} (h : callFunction vmId w f t args = .error e) : benignErr e := by
  unfold callFunction at h
  refine bindE _ h (fun eIn hIn => toPointerArray_err hIn) (fun a ha => ?_)
  obtain ⟨w1, arr⟩ := a
  refine bindE _ ha (fun eIn hIn => ctxValue_err hIn) (fun c hc => ?_)
  refine bindE _ hc (fun eIn hIn => ltValue_err hIn) (fun p1 hp1 => ?_)
  refine bindE _ hp1 (fun eIn hIn => ltValue_err hIn) (fun p2 hp2 => ?_)
  refine bindE _ hp2 (fun eIn hIn => ltValue_err hIn) (fun p3 hp3 => ?_)
  refine bindE _ hp3 (fun eIn hIn => ltDispose_err hIn) (fun w2 hw2 => ?_)
  exact (iteOk_ne_error hw2).elim

/-- When the ownership check passes, `typeof` raises only benign errors. -/
theorem vmTypeof_err_owned {w : World} {vmId lid : Nat} {e : String}
    (hok : w.assertOwned vmId lid = .ok ())
    (h : vmTypeof vmId w lid = .error e) : benignErr e := by
  unfold vmTypeof at h
  rw [hok] at h
  refine bindE _ h (fun eIn hIn => by cases hIn) (fun u hu => ?_)
  refine bindE _ hu (fun eIn hIn => ctxValue_err hIn) (fun c hc => ?_)
  exact bindE _ hc (fun eIn hIn => ltValue_err hIn) (fun a ha => by cases ha)

/-- When the ownership check passes, `getString` raises only benign errors. -/
theorem getString_err_owned {w : World} {vmId lid : Nat} {e : String}
    (hok : w.assertOwned vmId lid = .ok ())
    (h : getString vmId w lid = .error e) : benignErr e := by
  unfold getString at h
  rw [hok] at h
  refine bindE _ h (fun eIn hIn => by cases hIn) (fun u hu => ?_)
  refine bindE _ hu (fun eIn hIn => ctxValue_err hIn) (fun c hc => ?_)
  exact bindE _ hc (fun eIn hIn => ltValue_err hIn) (fun a ha => by cases ha)

/-- When the ownership check passes, `getNumber` raises only benign errors. -/
theorem getNumber_err_owned {w : World} {vmId lid : Nat} {e : String}
    (hok : w.assertOwned vmId lid = .ok ())
    (h : getNumber vmId w lid = .error e) : benignErr e := by
  unfold getNumber at h
  rw [hok] at h
  refine bindE _ h (fun eIn hIn => by cases hIn) (fun u hu => ?_)
  refine bindE _ hu (fun eIn hIn => ctxValue_err hIn) (fun c hc => ?_)
  exact bindE _ hc (fun eIn hIn => ltValue_err hIn) (fun a ha => by cases ha)

/-- When the prototype's ownership check passes, `newObject` raises only
benign errors. -/
theorem newObject_err_owned {w : World} {vmId lid : Nat} {e : String}
    (hok : w.assertOwned vmId lid = .ok ())
    (h : newObject vmId w (some lid) = .error e) : benignErr e := by
  unfold newObject at h
  dsimp only at h
  rw [hok] at h
  refine bindE _ h (fun eIn hIn => by cases hIn) (fun u hu => ?_)
  refine bindE _ hu (fun eIn hIn => ctxValue_err hIn) (fun c hc => ?_)
  exact bindE _ hc (fun eIn hIn => ltValue_err hIn) (fun a ha => by cases ha)

/-- When the ownership check passes, `dump` raises only benign errors. -/
theorem dump_err_owned {w : World} {vmId lid : Nat} {e : String}
    (hok : w.assertOwned vmId lid = .ok ())
    (h : dump vmId w lid = .error e) : benignErr e := by
  unfold dump at h
  refine bindE _ h (fun eIn hIn => vmTypeof_err_owned hok hIn) (fun ty hty => ?_)
  by_cases h1 : (ty == "string") = true
  · rw [if_pos h1] at hty
    exact bindE _ hty (fun eIn hIn => getString_err_owned hok hIn)
      (fun s hs => by cases hs)
  · rw [if_neg h1] at hty
    by_cases h2 : (ty == "number") = true
    · rw [if_pos h2] at hty
      exact bindE _ hty (fun eIn hIn => getNumber_err_owned hok hIn)
        (fun n hn => by cases hn)
    · rw [if_neg h2] at hty
      by_cases h3 : (ty == "undefined") = true
      · rw [if_pos h3] at hty
        cases hty
      · rw [if_neg h3] at hty
        refine bindE _ hty (fun eIn hIn => ctxValue_err hIn) (fun c hc => ?_)
        exact bindE _ hc (fun eIn hIn => ltValue_err hIn) (fun a ha => by cases ha)

/-- The ownership check rejects a handle owned by a different VM. -/
theorem assertOwned_foreign {w : World} {vmId lid a : Nat}
    (ho : w.ltOwner lid = some a) (hne : a ≠ vmId) :
    w.assertOwned vmId lid = .error differentVmMsg := by
  simp [World.assertOwned, ho, hne]

/-- On a foreign-owned handle, `typeof` fails with the ownership error. -/
theorem vmTypeof_foreign {w : World} {vmId lid a : Nat}
    (ho : w.ltOwner lid = some a) (hne : a ≠ vmId) :
    vmTypeof vmId w lid = .error differentVmMsg := by
  unfold vmTypeof
  rw [assertOwned_foreign ho hne]
  rfl

/-- On a foreign-owned handle, `getNumber` fails with the ownership error. -/
theorem getNumber_foreign {w : World} {vmId lid a : Nat}
    (ho : w.ltOwner lid = some a) (hne : a ≠ vmId) :
    getNumber vmId w lid = .error differentVmMsg := by
  unfold getNumber
  rw [assertOwned_foreign ho hne]
  rfl

/-- On a foreign-owned handle, `getString` fails with the ownership error. -/
theorem getString_foreign {w : World} {vmId lid a : Nat}
    (ho : w.ltOwner lid = some a) (hne : a ≠ vmId) :
    getString vmId w lid = .error differentVmMsg := by
  unfold getString
  rw [assertOwned_foreign ho hne]
  rfl

/-- On a foreign-owned prototype, `newObject` fails with the ownership
error. -/
theorem newObject_foreign {w : World} {vmId lid a : Nat}
    (ho : w.ltOwner lid = some a) (hne : a ≠ vmId) :
    newObject vmId w (some lid) = .error differentVmMsg := by
  unfold newObject
  dsimp only
  rw [assertOwned_foreign ho hne]
  rfl

/-- On a foreign-owned handle, `dump` fails with the ownership error. -/
theorem dump_foreign {w : World} {vmId lid a : Nat}
    (ho : w.ltOwner lid = some a) (hne : a ≠ vmId) :
    dump vmId w lid = .error differentVmMsg := by
  unfold dump
  rw [vmTypeof_foreign ho hne]
  rfl

/-- Concrete two-VM state: VM 0 (context lifetime 0) and VM 1 (context
lifetime 1), plus handle 2 — an object handle created and owned by VM 0. -/
def w2x : World :=
  { w0empty with
    engine := { w0empty.engine with heap := [(50, .obj [])], nextAddr := 60 },
    lts := [(0, ⟨100, none, .ctxDisposer, true, 0⟩),
            (1, ⟨101, none, .ctxDisposer, true, 0⟩),
            (2, ⟨50, some 0, .freeJSValue 0, true, 0⟩)],
    nextLt := 3,
    vms := [(0, ⟨0, 0, none, none, [], 0, []⟩), (1, ⟨1, 1, none, none, [], 0, []⟩)] }

/-- C2 counterexample: handle 2 belongs to VM 0, and VM 1's `typeof` indeed
rejects it with the ownership error — but VM 1's `getProp` accepts the same
foreign handle and succeeds, because the source performs no ownership check
in `getProp` (nor in `setProp`, `defineProp`, `callFunction`).  This
refutes the claim that every handle-accepting facade operation of a
distinct VM fails with an ownership-violation error. -/
theorem c2_getProp_accepts_foreign_handle :
    w2x.ltOwner 2 = some 0 ∧
    vmTypeof 1 w2x 2 = .error differentVmMsg ∧
    (∃ wOut r, getProp 1 w2x 2 (Key.str "k") = .ok (wOut, r)) ∧
    (∃ wOut, setProp 1 w2x 2 (Key.str "k") 2 = .ok wOut) := by
  refine ⟨rfl, rfl, ⟨_, _, rfl⟩, ⟨_, rfl⟩⟩

/-- C2 amended: of the handle-accepting facade operations, exactly
`typeof`, `getNumber`, `getString`, `newObject` (with a prototype) and
`dump` perform the ownership check: each fails with the ownership-violation
error on a handle owned by a different VM, and never produces that error
when the check passes (in particular on the owning VM).  `getProp`,
`setProp`, `defineProp` and `callFunction` perform no ownership check at
all: they never produce the ownership-violation error, for any handle. -/
theorem c2_ownership_check_coverage (w : World) (b lid : Nat) :
    (∀ a, w.ltOwner lid = some a → a ≠ b →
      vmTypeof b w lid = .error differentVmMsg ∧
      getNumber b w lid = .error differentVmMsg ∧
      getString b w lid = .error differentVmMsg ∧
      newObject b w (some lid) = .error differentVmMsg ∧
      dump b w lid = .error differentVmMsg) ∧
    (w.assertOwned b lid = .ok () →
      (∀ e, vmTypeof b w lid = .error e → e ≠ differentVmMsg) ∧
      (∀ e, getNumber b w lid = .error e → e ≠ differentVmMsg) ∧
      (∀ e, getString b w lid = .error e → e ≠ differentVmMsg) ∧
      (∀ e, newObject b w (some lid) = .error e → e ≠ differentVmMsg) ∧
      (∀ e, dump b w lid = .error e → e ≠ differentVmMsg)) ∧
    (∀ key e, getProp b w lid key = .error e → e ≠ differentVmMsg) ∧
    (∀ key v e, setProp b w lid key v = .error e → e ≠ differentVmMsg) ∧
    (∀ key d e, defineProp b w lid key d = .error e → e ≠ differentVmMsg) ∧
    (∀ f t args e, callFunction b w f t args = .error e → e ≠ differentVmMsg) := by
  refine ⟨?_, ?_, ?_, ?_, ?_, ?_⟩
  · intro a ho hne
    exact ⟨vmTypeof_foreign ho hne, getNumber_foreign ho hne,
      getString_foreign ho hne, newObject_foreign ho hne, dump_foreign ho hne⟩
  · intro hok
    exact ⟨fun e he => benignErr_ne e (vmTypeof_err_owned hok he),
      fun e he => benignErr_ne e (getNumber_err_owned hok he),
      fun e he => benignErr_ne e (getString_err_owned hok he),
      fun e he => benignErr_ne e (newObject_err_owned hok he),
      fun e he => benignErr_ne e (dump_err_owned hok he)⟩
  · intro key e he
    exact benignErr_ne e (getProp_err he)
  · intro key v e he
    exact benignErr_ne e (setProp_err he)
  · intro key d e he
    exact benignErr_ne e (defineProp_err he)
  · intro f t args e he
    exact benignErr_ne e (callFunction_err he)

/-- Witness for the amended C2 at concrete states: on `w2x`, VM 1 rejects VM
0's handle 2 in all five checking operations; on the owning VM 0 the check
passes and a failing `getString` on a dangling handle raises only the
"Not alive" error; and `getProp`/`callFunction` failures are likewise never
the ownership error. -/
theorem c2_ownership_check_coverage_witness :
    (vmTypeof 1 w2x 2 = .error differentVmMsg ∧
      getNumber 1 w2x 2 = .error differentVmMsg ∧
      getString 1 w2x 2 = .error differentVmMsg ∧
      newObject 1 w2x (some 2) = .error differentVmMsg ∧
      dump 1 w2x 2 = .error differentVmMsg) ∧
    ("Not alive" : String) ≠ differentVmMsg ∧
    ("Not alive" : String) ≠ differentVmMsg ∧
    ("Not alive" : String) ≠ differentVmMsg := by
  refine ⟨(c2_ownership_check_coverage w2x 1 2).1 0 rfl (by decide), ?_, ?_, ?_⟩
  · exact ((c2_ownership_check_coverage w2x 0 7).2.1 rfl).2.2.1 "Not alive" rfl
  · exact (c2_ownership_check_coverage w2x 1 2).2.2.1 (Key.handle 9) "Not alive" rfl
  · exact (c2_ownership_check_coverage w2x 1 2).2.2.2.2.2 99 99 [] "Not alive" rfl

/-- Filtering out a key leaves nothing for that key to find (proof helper). -/
theorem lookup_filter_self {β : Type} (l : List (Nat × β)) (a : Nat) :
    (l.filter (fun p => p.1 ≠ a)).lookup a = none := by
  induction l with
  | nil => rfl
  | cons p l ih =>
      by_cases h : p.1 = a
      · simp only [List.filter_cons, decide_eq_true_eq]
        rw [if_neg (fun hc => hc h)]
        exact ih
      · simp only [List.filter_cons, decide_eq_true_eq]
        rw [if_pos h]
        rw [List.lookup]
        have hb : (a == p.1) = false := beq_eq_false_iff_ne.mpr (fun hc => h hc.symm)
        rw [hb]
        exact ih

/-- Evaluation of `evalCode` when the engine's next outcome is a thrown
exception: the raw result pointer is freed and the exception value comes
back wrapped as an `error` handle owned by the VM. -/
theorem evalCode_threw (w : World) (vmId : Nat) (code : String) (ex : EValue)
    (rest : List CallOutcome) (c : Addr)
    (hctxV : w.ctxValue vmId = .ok c)
    (hscript : w.engine.script = .threw ex :: rest) :
    ∃ wF h,
      evalCode vmId w code = .ok (wF, .error h) ∧
      wF.lts.lookup h
        = some ⟨w.engine.nextAddr + 1, some vmId, .freeJSValue vmId, true, 0⟩ ∧
      wF.engine.read (w.engine.nextAddr + 1) = ex ∧
      wF.engine.heap.lookup w.engine.nextAddr = none ∧
      wF.log = w.log ++ [.freeValue w.engine.nextAddr] := by
  unfold evalCode
  rw [hctxV]
  rw [exceptBind_ok]
  simp only [QTS_Eval, Engine.runOutcome, hscript, Engine.alloc, QTS_ResolveException]
  simp only [List.lookup, beq_self_eq_true]
  simp only [Nat.succ_ne_zero, ne_eq, not_false_eq_true, if_true, QTS_FreeValuePointer,
    World.heapValueHandle, World.newLifetime]
  refine ⟨_, _, rfl, ?_, ?_, ?_, ?_⟩
  · simp [List.lookup]
  · simp [Engine.read, List.lookup]
  · exact lookup_filter_self _ _
  · rfl

/-- Evaluation of `evalCode` when the engine's next outcome is a normal
completion: the raw result pointer comes back wrapped as a `value` handle
owned by the VM and nothing is freed. -/
theorem evalCode_completed (w : World) (vmId : Nat) (code : String) (v : EValue)
    (rest : List CallOutcome) (c : Addr)
    (hctxV : w.ctxValue vmId = .ok c)
    (hscript : w.engine.script = .completed v :: rest)
    (hfresh : w.engine.excMap.lookup w.engine.nextAddr = none) :
    ∃ wF h,
      evalCode vmId w code = .ok (wF, .value h) ∧
      wF.lts.lookup h
        = some ⟨w.engine.nextAddr, some vmId, .freeJSValue vmId, true, 0⟩ ∧
      wF.engine.read w.engine.nextAddr = v ∧
      wF.log = w.log := by
  unfold evalCode
  rw [hctxV]
  rw [exceptBind_ok]
  simp only [QTS_Eval, Engine.runOutcome, hscript, Engine.alloc, QTS_ResolveException]
  simp only [hfresh]
  simp only [ne_eq, not_true_eq_false, if_false, World.heapValueHandle,
    World.newLifetime]
  refine ⟨_, _, rfl, ?_, ?_, rfl⟩
  · simp [List.lookup]
  · simp [Engine.read, List.lookup]

/-- Evaluation of `callFunction` when the engine's next outcome is a thrown
exception: the argument array is marshaled and released, the raw result
pointer is freed, and the exception value comes back wrapped as an `error`
handle owned by the VM. -/
theorem callFunction_threw (w : World) (vmId : Nat) (vm : Vm) (f t : Nat)
    (args : List Nat) (ptrs : List Addr) (ex : EValue) (rest : List CallOutcome)
    (c fa ta : Addr)
    (hwf : w.ltWF)
    (hvm : w.vms.lookup vmId = some vm)
    (hctx : w.ltValue vm.ctxLt = .ok c)
    (hf : w.ltValue f = .ok fa)
    (ht : w.ltValue t = .ok ta)
    (hargs : args.mapM w.ltValue = .ok ptrs)
    (hscript : w.engine.script = .threw ex :: rest) :
    ∃ wF h,
      callFunction vmId w f t args = .ok (wF, .error h) ∧
      wF.lts.lookup h
        = some ⟨w.engine.nextAddr + 2, some vmId, .freeJSValue vmId, true, 0⟩ ∧
      wF.engine.read (w.engine.nextAddr + 2) = ex ∧
      wF.engine.heap.lookup (w.engine.nextAddr + 1) = none ∧
      wF.log = w.log ++ [.disposeLt w.nextLt, .freeHostMemE w.engine.nextAddr,
        .freeValue (w.engine.nextAddr + 1)] := by
  have hclt : vm.ctxLt < w.nextLt := by
    rcases (ltValue_ok_iff w vm.ctxLt c).1 hctx with ⟨r, hr, _, _⟩
    exact hwf vm.ctxLt r hr
  have hflt : f < w.nextLt := by
    rcases (ltValue_ok_iff w f fa).1 hf with ⟨r, hr, _, _⟩
    exact hwf f r hr
  have htlt : t < w.nextLt := by
    rcases (ltValue_ok_iff w t ta).1 ht with ⟨r, hr, _, _⟩
    exact hwf t r hr
  have h1 : toPointerArray w args
      = .ok ((World.newLifetime { w with engine := (w.engine.mallocPtrArray ptrs).1 }
          (w.engine.mallocPtrArray ptrs).2 .freeHostMem none).1,
        (World.newLifetime { w with engine := (w.engine.mallocPtrArray ptrs).1 }
          (w.engine.mallocPtrArray ptrs).2 .freeHostMem none).2) := by
    unfold toPointerArray
    rw [hargs, exceptBind_ok]
  have h2 : World.ctxValue
      (World.newLifetime { w with engine := (w.engine.mallocPtrArray ptrs).1 }
        (w.engine.mallocPtrArray ptrs).2 .freeHostMem none).1 vmId = .ok c := by
    unfold World.ctxValue World.getVm
    rw [show (World.newLifetime { w with engine := (w.engine.mallocPtrArray ptrs).1 }
        (w.engine.mallocPtrArray ptrs).2 .freeHostMem none).1.vms = w.vms from rfl]
    rw [hvm, exceptBind_ok]
    rw [ltValue_newLifetime_ne { w with engine := (w.engine.mallocPtrArray ptrs).1 }
      (w.engine.mallocPtrArray ptrs).2 .freeHostMem none vm.ctxLt
      (Nat.ne_of_lt hclt)]
    exact hctx
  have h3 : World.ltValue
      (World.newLifetime { w with engine := (w.engine.mallocPtrArray ptrs).1 }
        (w.engine.mallocPtrArray ptrs).2 .freeHostMem none).1 f = .ok fa := by
    rw [ltValue_newLifetime_ne { w with engine := (w.engine.mallocPtrArray ptrs).1 }
      (w.engine.mallocPtrArray ptrs).2 .freeHostMem none f (Nat.ne_of_lt hflt)]
    exact hf
  have h4 : World.ltValue
      (World.newLifetime { w with engine := (w.engine.mallocPtrArray ptrs).1 }
        (w.engine.mallocPtrArray ptrs).2 .freeHostMem none).1 t = .ok ta := by
    rw [ltValue_newLifetime_ne { w with engine := (w.engine.mallocPtrArray ptrs).1 }
      (w.engine.mallocPtrArray ptrs).2 .freeHostMem none t (Nat.ne_of_lt htlt)]
    exact ht
  have h5 : World.ltValue
      (World.newLifetime { w with engine := (w.engine.mallocPtrArray ptrs).1 }
        (w.engine.mallocPtrArray ptrs).2 .freeHostMem none).1
      (World.newLifetime { w with engine := (w.engine.mallocPtrArray ptrs).1 }
        (w.engine.mallocPtrArray ptrs).2 .freeHostMem none).2
      = .ok w.engine.nextAddr := by
    rw [ltValue_ok_iff]
    exact ⟨_, lookup_newLifetime_self _ _ _ _, rfl, rfl⟩
  unfold callFunction
  simp only [h1, exceptBind_ok, h2, h3, h4, h5]
  simp only [QTS_Call, Engine.runOutcome, World.newLifetime, Engine.mallocPtrArray,
    hscript, Engine.alloc]
  simp only [World.ltDispose, World.ltRec, List.lookup, beq_self_eq_true]
  simp only [Bool.not_true, Bool.false_eq_true, if_false, runDisposer,
    Engine.freeHostBlock, World.setLt, exceptBind_ok]
  simp only [QTS_ResolveException, List.lookup, beq_self_eq_true]
  simp only [Engine.alloc, Nat.succ_ne_zero, ne_eq, not_false_eq_true, if_true,
    QTS_FreeValuePointer, World.heapValueHandle, World.newLifetime]
  refine ⟨_, _, rfl, ?_, ?_, ?_, ?_⟩
  · simp [List.lookup]
  · simp [Engine.read, List.lookup]
  · exact lookup_filter_self _ _
  · simp

/-- Evaluation of `callFunction` when the engine's next outcome is a normal
completion: the argument array is marshaled and released and the raw result
pointer comes back wrapped as a `value` handle owned by the VM; the raw
result is not freed. -/
theorem callFunction_completed (w : World) (vmId : Nat) (vm : Vm) (f t : Nat)
    (args : List Nat) (ptrs : List Addr) (v : EValue) (rest : List CallOutcome)
    (c fa ta : Addr)
    (hwf : w.ltWF)
    (hvm : w.vms.lookup vmId = some vm)
    (hctx : w.ltValue vm.ctxLt = .ok c)
    (hf : w.ltValue f = .ok fa)
    (ht : w.ltValue t = .ok ta)
    (hargs : args.mapM w.ltValue = .ok ptrs)
    (hscript : w.engine.script = .completed v :: rest)
    (hfresh : w.engine.excMap.lookup (w.engine.nextAddr + 1) = none) :
    ∃ wF h,
      callFunction vmId w f t args = .ok (wF, .value h) ∧
      wF.lts.lookup h
        = some ⟨w.engine.nextAddr + 1, some vmId, .freeJSValue vmId, true, 0⟩ ∧
      wF.engine.read (w.engine.nextAddr + 1) = v ∧
      wF.log = w.log ++ [.disposeLt w.nextLt, .freeHostMemE w.engine.nextAddr] := by
  have hclt : vm.ctxLt < w.nextLt := by
    rcases (ltValue_ok_iff w vm.ctxLt c).1 hctx with ⟨r, hr, _, _⟩
    exact hwf vm.ctxLt r hr
  have hflt : f < w.nextLt := by
    rcases (ltValue_ok_iff w f fa).1 hf with ⟨r, hr, _, _⟩
    exact hwf f r hr
  have htlt : t < w.nextLt := by
    rcases (ltValue_ok_iff w t ta).1 ht with ⟨r, hr, _, _⟩
    exact hwf t r hr
  have h1 : toPointerArray w args
      = .ok ((World.newLifetime { w with engine := (w.engine.mallocPtrArray ptrs).1 }
          (w.engine.mallocPtrArray ptrs).2 .freeHostMem none).1,
        (World.newLifetime { w with engine := (w.engine.mallocPtrArray ptrs).1 }
          (w.engine.mallocPtrArray ptrs).2 .freeHostMem none).2) := by
    unfold toPointerArray
    rw [hargs, exceptBind_ok]
  have h2 : World.ctxValue
      (World.newLifetime { w with engine := (w.engine.mallocPtrArray ptrs).1 }
        (w.engine.mallocPtrArray ptrs).2 .freeHostMem none).1 vmId = .ok c := by
    unfold World.ctxValue World.getVm
    rw [show (World.newLifetime { w with engine := (w.engine.mallocPtrArray ptrs).1 }
        (w.engine.mallocPtrArray ptrs).2 .freeHostMem none).1.vms = w.vms from rfl]
    rw [hvm, exceptBind_ok]
    rw [ltValue_newLifetime_ne { w with engine := (w.engine.mallocPtrArray ptrs).1 }
      (w.engine.mallocPtrArray ptrs).2 .freeHostMem none vm.ctxLt
      (Nat.ne_of_lt hclt)]
    exact hctx
  have h3 : World.ltValue
      (World.newLifetime { w with engine := (w.engine.mallocPtrArray ptrs).1 }
        (w.engine.mallocPtrArray ptrs).2 .freeHostMem none).1 f = .ok fa := by
    rw [ltValue_newLifetime_ne { w with engine := (w.engine.mallocPtrArray ptrs).1 }
      (w.engine.mallocPtrArray ptrs).2 .freeHostMem none f (Nat.ne_of_lt hflt)]
    exact hf
  have h4 : World.ltValue
      (World.newLifetime { w with engine := (w.engine.mallocPtrArray ptrs).1 }
        (w.engine.mallocPtrArray ptrs).2 .freeHostMem none).1 t = .ok ta := by
    rw [ltValue_newLifetime_ne { w with engine := (w.engine.mallocPtrArray ptrs).1 }
      (w.engine.mallocPtrArray ptrs).2 .freeHostMem none t (Nat.ne_of_lt htlt)]
    exact ht
  have h5 : World.ltValue
      (World.newLifetime { w with engine := (w.engine.mallocPtrArray ptrs).1 }
        (w.engine.mallocPtrArray ptrs).2 .freeHostMem none).1
      (World.newLifetime { w with engine := (w.engine.mallocPtrArray ptrs).1 }
        (w.engine.mallocPtrArray ptrs).2 .freeHostMem none).2
      = .ok w.engine.nextAddr := by
    rw [ltValue_ok_iff]
    exact ⟨_, lookup_newLifetime_self _ _ _ _, rfl, rfl⟩
  unfold callFunction
  simp only [h1, exceptBind_ok, h2, h3, h4, h5]
  simp only [QTS_Call, Engine.runOutcome, World.newLifetime, Engine.mallocPtrArray,
    hscript, Engine.alloc]
  simp only [World.ltDispose, World.ltRec, List.lookup, beq_self_eq_true]
  simp only [Bool.not_true, Bool.false_eq_true, if_false, runDisposer,
    Engine.freeHostBlock, World.setLt, exceptBind_ok]
  simp only [QTS_ResolveException, List.lookup]
  simp only [hfresh]
  simp only [ne_eq, not_true_eq_false, if_false, World.heapValueHandle,
    World.newLifetime]
  refine ⟨_, _, rfl, ?_, ?_, ?_⟩
  · simp [List.lookup]
  · simp [Engine.read, List.lookup]
  · simp

/-- C5: the exception-resolution protocol of `callFunction` and `evalCode`.
When the engine reports a pending exception for the raw result, the raw
result pointer is freed (removed from the engine heap, with the free
recorded in the log) and the operation returns `{error}` wrapping a handle
to the exception value; otherwise it returns `{value}` wrapping the raw
result, which is not freed.  In both cases the operation returns a result —
guest-language errors are never thrown from these operations. -/
theorem c5_exception_resolution_protocol (w : World) (vmId : Nat) (vm : Vm)
    (f t : Nat) (args : List Nat) (ptrs : List Addr) (code : String)
    (c fa ta : Addr)
    (hwf : w.ltWF)
    (hvm : w.vms.lookup vmId = some vm)
    (hctx : w.ltValue vm.ctxLt = .ok c)
    (hf : w.ltValue f = .ok fa)
    (ht : w.ltValue t = .ok ta)
    (hargs : args.mapM w.ltValue = .ok ptrs) :
    (∀ ex rest, w.engine.script = .threw ex :: rest →
      ∃ wF h, callFunction vmId w f t args = .ok (wF, .error h) ∧
        wF.lts.lookup h
          = some ⟨w.engine.nextAddr + 2, some vmId, .freeJSValue vmId, true, 0⟩ ∧
        wF.engine.read (w.engine.nextAddr + 2) = ex ∧
        wF.engine.heap.lookup (w.engine.nextAddr + 1) = none ∧
        wF.log = w.log ++ [.disposeLt w.nextLt, .freeHostMemE w.engine.nextAddr,
          .freeValue (w.engine.nextAddr + 1)]) ∧
    (∀ v rest, w.engine.script = .completed v :: rest →
      w.engine.excMap.lookup (w.engine.nextAddr + 1) = none →
      ∃ wF h, callFunction vmId w f t args = .ok (wF, .value h) ∧
        wF.lts.lookup h
          = some ⟨w.engine.nextAddr + 1, some vmId, .freeJSValue vmId, true, 0⟩ ∧
        wF.engine.read (w.engine.nextAddr + 1) = v ∧
        wF.log = w.log ++ [.disposeLt w.nextLt, .freeHostMemE w.engine.nextAddr]) ∧
    (∀ ex rest, w.engine.script = .threw ex :: rest →
      ∃ wF h, evalCode vmId w code = .ok (wF, .error h) ∧
        wF.lts.lookup h
          = some ⟨w.engine.nextAddr + 1, some vmId, .freeJSValue vmId, true, 0⟩ ∧
        wF.engine.read (w.engine.nextAddr + 1) = ex ∧
        wF.engine.heap.lookup w.engine.nextAddr = none ∧
        wF.log = w.log ++ [.freeValue w.engine.nextAddr]) ∧
    (∀ v rest, w.engine.script = .completed v :: rest →
      w.engine.excMap.lookup w.engine.nextAddr = none →
      ∃ wF h, evalCode vmId w code = .ok (wF, .value h) ∧
        wF.lts.lookup h
          = some ⟨w.engine.nextAddr, some vmId, .freeJSValue vmId, true, 0⟩ ∧
        wF.engine.read w.engine.nextAddr = v ∧
        wF.log = w.log) := by
  have hctxV : w.ctxValue vmId = .ok c := by
    unfold World.ctxValue World.getVm
    rw [hvm, exceptBind_ok]
    exact hctx
  refine ⟨?_, ?_, ?_, ?_⟩
  · intro ex rest hscript
    exact callFunction_threw w vmId vm f t args ptrs ex rest c fa ta
      hwf hvm hctx hf ht hargs hscript
  · intro v rest hscript hfresh
    exact callFunction_completed w vmId vm f t args ptrs v rest c fa ta
      hwf hvm hctx hf ht hargs hscript hfresh
  · intro ex rest hscript
    exact evalCode_threw w vmId code ex rest c hctxV hscript
  · intro v rest hscript hfresh
    exact evalCode_completed w vmId code v rest c hctxV hscript hfresh

/-- Concrete state for call/eval runs: one VM (id 0, context lifetime 0) and
two object handles (lifetimes 1 and 2, owned by the VM). -/
def w5base : World :=
  { w0empty with
    engine := { w0empty.engine with
                heap := [(50, .obj []), (51, .obj [])]
                nextAddr := 60 },
    lts := [(0, ⟨100, none, .ctxDisposer, true, 0⟩),
            (1, ⟨50, some 0, .freeJSValue 0, true, 0⟩),
            (2, ⟨51, some 0, .freeJSValue 0, true, 0⟩)],
    nextLt := 3,
    vms := [(0, ⟨0, 99, none, none, [], 0, []⟩)] }

/-- The call/eval base state, with the engine scripted to throw. -/
def w5threw : World :=
  { w5base with engine := { w5base.engine with script := [.threw (.str "boom")] } }

/-- The call/eval base state, with the engine scripted to complete
normally. -/
def w5done : World :=
  { w5base with engine := { w5base.engine with script := [.completed (.num 7)] } }

/-- The call/eval base states have well-formed lifetime stores. -/
theorem w5base_wf : ∀ e : Engine, ({ w5base with engine := e } : World).ltWF := by
  intro e lid r h
  by_cases h0 : lid = 0
  · rw [h0]
    show (0 : Nat) < 3
    decide
  by_cases h1 : lid = 1
  · rw [h1]
    show (1 : Nat) < 3
    decide
  by_cases h2 : lid = 2
  · rw [h2]
    show (2 : Nat) < 3
    decide
  rw [show List.lookup lid ({ w5base with engine := e } : World).lts = none from by
    simp [w5base, w0empty, List.lookup, beq_eq_false_iff_ne.mpr h0,
      beq_eq_false_iff_ne.mpr h1, beq_eq_false_iff_ne.mpr h2]] at h
  cases h

/-- Witness for C5 at concrete states: calling handle 1 with `this` handle 2
and no arguments on the throwing engine yields an `{error}` handle wrapping
the thrown string with the raw result freed; on the completing engine it
yields a `{value}` handle wrapping the completion value; likewise for
`evalCode`. -/
theorem c5_exception_resolution_protocol_witness :
    (∃ wF h, callFunction 0 w5threw 1 2 [] = .ok (wF, .error h) ∧
      wF.lts.lookup h = some ⟨62, some 0, .freeJSValue 0, true, 0⟩ ∧
      wF.engine.read 62 = .str "boom" ∧
      wF.engine.heap.lookup 61 = none ∧
      wF.log = [.disposeLt 3, .freeHostMemE 60, .freeValue 61]) ∧
    (∃ wF h, callFunction 0 w5done 1 2 [] = .ok (wF, .value h) ∧
      wF.lts.lookup h = some ⟨61, some 0, .freeJSValue 0, true, 0⟩ ∧
      wF.engine.read 61 = .num 7 ∧
      wF.log = [.disposeLt 3, .freeHostMemE 60]) ∧
    (∃ wF h, evalCode 0 w5threw "boom()" = .ok (wF, .error h) ∧
      wF.lts.lookup h = some ⟨61, some 0, .freeJSValue 0, true, 0⟩ ∧
      wF.engine.read 61 = .str "boom" ∧
      wF.engine.heap.lookup 60 = none ∧
      wF.log = [.freeValue 60]) ∧
    (∃ wF h, evalCode 0 w5done "3+4" = .ok (wF, .value h) ∧
      wF.lts.lookup h = some ⟨60, some 0, .freeJSValue 0, true, 0⟩ ∧
      wF.engine.read 60 = .num 7 ∧
      wF.log = []) := by
  refine ⟨?_, ?_, ?_, ?_⟩
  · exact (c5_exception_resolution_protocol w5threw 0 ⟨0, 99, none, none, [], 0, []⟩
      1 2 [] [] "boom()" 100 50 51 (w5base_wf _) rfl rfl rfl rfl rfl).1
      (.str "boom") [] rfl
  · exact (c5_exception_resolution_protocol w5done 0 ⟨0, 99, none, none, [], 0, []⟩
      1 2 [] [] "3+4" 100 50 51 (w5base_wf _) rfl rfl rfl rfl rfl).2.1
      (.num 7) [] rfl rfl
  · exact (c5_exception_resolution_protocol w5threw 0 ⟨0, 99, none, none, [], 0, []⟩
      1 2 [] [] "boom()" 100 50 51 (w5base_wf _) rfl rfl rfl rfl rfl).2.2.1
      (.str "boom") [] rfl
  · exact (c5_exception_resolution_protocol w5done 0 ⟨0, 99, none, none, [], 0, []⟩
      1 2 [] [] "3+4" 100 50 51 (w5base_wf _) rfl rfl rfl rfl rfl).2.2.2
      (.num 7) [] rfl rfl

/-- Updating a present key in an association list by mapping (proof
helper). -/
theorem lookup_map_update {β : Type} (l : List (Nat × β)) (a : Nat) (b bold : β)
    (h : l.lookup a = some bold) :
    (l.map (fun p => if p.1 = a then (a, b) else p)).lookup a = some b := by
  induction l with
  | nil => cases h
  | cons p l ih =>
      by_cases hp : p.1 = a
      · simp only [List.map_cons]
        rw [if_pos hp]
        simp [List.lookup]
      · simp only [List.lookup] at h
        have hb : (a == p.1) = false := beq_eq_false_iff_ne.mpr (fun hc => hp hc.symm)
        rw [hb] at h
        simp only [List.map_cons]
        rw [if_neg hp]
        simp only [List.lookup, hb]
        exact ih h

/-- A dumped value with a string `message` field passes the source's
error-shape test. -/
theorem errorShaped_of_message {v : EValue} {m : String}
    (hm : messageOf v = some m) : errorShaped v = true := by
  cases v with
  | obj props =>
      simp [errorShaped, EValue.truthy, Option.isSome, hm]
  | undefined => simp [messageOf] at hm
  | num n => simp [messageOf] at hm
  | str s => simp [messageOf] at hm

/-- A dumped value without a string `message` field fails the source's
error-shape test. -/
theorem errorShaped_of_no_message {v : EValue}
    (hm : messageOf v = none) : errorShaped v = false := by
  simp [errorShaped, hm, Option.isSome]

/-- C6: `unwrapResult` returns the value handle unchanged on a `{value}`
result.  On an `{error}` result it dumps the error, disposes the error
handle (its dispose counter advances on every error path), and then raises
a host error: a reconstructed `Error` carrying the dumped object's
`message` (and its `name` when that is a string) when the dump is an object
with a string `message` field, and the dumped value itself verbatim
otherwise. -/
theorem c6_unwrapResult_protocol (w : World) (vmId lid : Nat) (r : LtRec)
    (vm : Vm) (c : Addr)
    (hr : w.lts.lookup lid = some r)
    (hralive : r.alive = true)
    (hrdisp : r.disp = .freeJSValue vmId)
    (hvm : w.vms.lookup vmId = some vm)
    (hctx : w.ltValue vm.ctxLt = .ok c) :
    (∀ v, unwrapResult vmId w (.value v) = .ok (w, .ok v)) ∧
    (∀ dumped m, dump vmId w lid = .ok dumped → messageOf dumped = some m →
      ∃ wR, unwrapResult vmId w (.error lid)
          = .ok (wR, .error (.hostError (nameOf dumped) m)) ∧
        (wR.lts.lookup lid).map (·.disposeCount) = some (r.disposeCount + 1)) ∧
    (∀ dumped, dump vmId w lid = .ok dumped → messageOf dumped = none →
      ∃ wR, unwrapResult vmId w (.error lid) = .ok (wR, .error (.raw dumped)) ∧
        (wR.lts.lookup lid).map (·.disposeCount) = some (r.disposeCount + 1)) := by
  have hctxV : w.ctxValue vmId = .ok c := by
    unfold World.ctxValue World.getVm
    rw [hvm, exceptBind_ok]
    exact hctx
  have hdisp : w.ltDispose lid = .ok
      (World.setLt
        { w with engine := QTS_FreeValuePointer w.engine r.addr,
                 log := (w.log ++ [.disposeLt lid]) ++ [.freeValue r.addr] }
        lid { r with alive := true, disposeCount := r.disposeCount + 1 }) := by
    unfold World.ltDispose
    rw [show w.ltRec lid = some r from hr]
    dsimp only
    rw [hralive]
    simp only [Bool.not_true, Bool.false_eq_true, if_false]
    unfold runDisposer
    rw [hrdisp]
    dsimp only
    rw [show World.ctxValue
        { w with log := w.log ++ [.disposeLt lid] } vmId = .ok c from hctxV]
    rw [exceptBind_ok, exceptBind_ok]
  have hcount : ∀ eng lg,
      ((World.setLt { w with engine := eng, log := lg }
          lid { r with alive := true, disposeCount := r.disposeCount + 1 }).lts.lookup
        lid).map (·.disposeCount) = some (r.disposeCount + 1) := by
    intro eng lg
    unfold World.setLt
    rw [lookup_map_update _ _ _ r hr]
    rfl
  refine ⟨fun v => rfl, ?_, ?_⟩
  · intro dumped m hdump hm
    unfold unwrapResult
    dsimp only
    rw [hdump, exceptBind_ok, hdisp, exceptBind_ok]
    rw [if_pos (by rw [errorShaped_of_message hm])]
    refine ⟨World.setLt
        { w with engine := QTS_FreeValuePointer w.engine r.addr,
                 log := (w.log ++ [.disposeLt lid]) ++ [.freeValue r.addr] }
        lid { r with alive := true, disposeCount := r.disposeCount + 1 }, ?_, ?_⟩
    · rw [show (messageOf dumped).getD "" = m from by rw [hm]; rfl]
    · exact hcount _ _
  · intro dumped hdump hm
    unfold unwrapResult
    dsimp only
    rw [hdump, exceptBind_ok, hdisp, exceptBind_ok]
    rw [if_neg (by rw [errorShaped_of_no_message hm]; exact Bool.false_ne_true)]
    refine ⟨World.setLt
        { w with engine := QTS_FreeValuePointer w.engine r.addr,
                 log := (w.log ++ [.disposeLt lid]) ++ [.freeValue r.addr] }
        lid { r with alive := true, disposeCount := r.disposeCount + 1 }, rfl, ?_⟩
    exact hcount _ _

/-- Concrete state for unwrap runs: one VM; handle 1 wraps an error-shaped
object with `name` and `message` string fields, handle 2 wraps an empty
object. -/
def w6 : World :=
  { w0empty with
    engine := { w0empty.engine with
                heap := [(50, .obj [("name", .str "TypeError"), ("message", .str "bad")]),
                         (51, .obj [])]
                nextAddr := 60 },
    lts := [(0, ⟨100, none, .ctxDisposer, true, 0⟩),
            (1, ⟨50, some 0, .freeJSValue 0, true, 0⟩),
            (2, ⟨51, some 0, .freeJSValue 0, true, 0⟩)],
    nextLt := 3,
    vms := [(0, ⟨0, 99, none, none, [], 0, []⟩)] }

/-- Witness for C6 at a concrete state: a `{value}` result is returned
unchanged; unwrapping an `{error}` whose dump is error-shaped raises the
reconstructed host error with its `name` and `message` and disposes the
handle; unwrapping an `{error}` whose dump has no string `message` raises
the dumped value verbatim and still disposes the handle. -/
theorem c6_unwrapResult_protocol_witness :
    unwrapResult 0 w6 (.value 2) = .ok (w6, .ok 2) ∧
    (∃ wR, unwrapResult 0 w6 (.error 1)
        = .ok (wR, .error (.hostError (some "TypeError") "bad")) ∧
      (wR.lts.lookup 1).map (·.disposeCount) = some 1) ∧
    (∃ wR, unwrapResult 0 w6 (.error 2) = .ok (wR, .error (.raw (.obj []))) ∧
      (wR.lts.lookup 2).map (·.disposeCount) = some 1) := by
  refine ⟨?_, ?_, ?_⟩
  · exact (c6_unwrapResult_protocol w6 0 1 ⟨50, some 0, .freeJSValue 0, true, 0⟩
      ⟨0, 99, none, none, [], 0, []⟩ 100 rfl rfl rfl rfl rfl).1 2
  · exact (c6_unwrapResult_protocol w6 0 1 ⟨50, some 0, .freeJSValue 0, true, 0⟩
      ⟨0, 99, none, none, [], 0, []⟩ 100 rfl rfl rfl rfl rfl).2.1
      (.obj [("name", .str "TypeError"), ("message", .str "bad")]) "bad" rfl rfl
  · exact (c6_unwrapResult_protocol w6 0 2 ⟨51, some 0, .freeJSValue 0, true, 0⟩
      ⟨0, 99, none, none, [], 0, []⟩ 100 rfl rfl rfl rfl rfl).2.2
      (.obj []) rfl rfl

/-- Mapping an update for one key leaves other keys' lookups unchanged
(proof helper). -/
theorem lookup_map_update_ne {β : Type} (l : List (Nat × β)) (a a2 : Nat) (b : β)
    (hne : a2 ≠ a) :
    (l.map (fun p => if p.1 = a then (a, b) else p)).lookup a2 = l.lookup a2 := by
  induction l with
  | nil => rfl
  | cons p l ih =>
      by_cases hp : p.1 = a
      · simp only [List.map_cons]
        rw [if_pos hp]
        simp only [List.lookup]
        rw [beq_eq_false_iff_ne.mpr hne]
        rw [beq_eq_false_iff_ne.mpr (by rw [hp]; exact hne)]
        exact ih
      · simp only [List.map_cons]
        rw [if_neg hp]
        simp only [List.lookup]
        cases hb : (a2 == p.1) with
        | true => rfl
        | false => exact ih

/-- Evaluation of `dispose()` on a heap-value lifetime (the `freeJSValue`
disposer): the engine value is freed, both events are logged, and the
record's ghost dispose counter advances while `_alive` is written `true`. -/
theorem ltDispose_freeJSValue_eval (w : World) (vmId lid : Nat) (r : LtRec)
    (vm : Vm) (c : Addr)
    (hr : w.lts.lookup lid = some r)
    (hralive : r.alive = true)
    (hrdisp : r.disp = .freeJSValue vmId)
    (hvm : w.vms.lookup vmId = some vm)
    (hctx : w.ltValue vm.ctxLt = .ok c) :
    w.ltDispose lid = .ok
      (World.setLt
        { w with engine := QTS_FreeValuePointer w.engine r.addr,
                 log := (w.log ++ [.disposeLt lid]) ++ [.freeValue r.addr] }
        lid { r with alive := true, disposeCount := r.disposeCount + 1 }) := by
  have hctxV : w.ctxValue vmId = .ok c := by
    unfold World.ctxValue World.getVm
    rw [hvm, exceptBind_ok]
    exact hctx
  unfold World.ltDispose
  rw [show w.ltRec lid = some r from hr]
  dsimp only
  rw [hralive]
  simp only [Bool.not_true, Bool.false_eq_true, if_false]
  unfold runDisposer
  rw [hrdisp]
  dsimp only
  rw [show World.ctxValue
      { w with log := w.log ++ [.disposeLt lid] } vmId = .ok c from hctxV]
  rw [exceptBind_ok, exceptBind_ok]

/-- Evaluation of `dispose()` on the context lifetime: the vm-table entry is
removed, the deletion and the context free are logged in that order. -/
theorem ltDispose_ctx_eval (w : World) (lid : Nat) (r : LtRec)
    (hr : w.lts.lookup lid = some r)
    (hralive : r.alive = true)
    (hrdisp : r.disp = .ctxDisposer) :
    w.ltDispose lid = .ok
      (World.setLt
        { w with vmMap := w.vmMap.filter (fun p => p.1 ≠ r.addr),
                 log := (w.log ++ [.disposeLt lid])
                   ++ [.vmMapDelete r.addr, .freeCtx r.addr] }
        lid { r with alive := true, disposeCount := r.disposeCount + 1 }) := by
  unfold World.ltDispose
  rw [show w.ltRec lid = some r from hr]
  dsimp only
  rw [hralive]
  simp only [Bool.not_true, Bool.false_eq_true, if_false]
  unfold runDisposer
  rw [hrdisp]
  dsimp only
  rw [exceptBind_ok]

/-- Evaluation of `dispose()` on the runtime lifetime: the runtime free is
logged. -/
theorem ltDispose_rt_eval (w : World) (lid : Nat) (r : LtRec)
    (hr : w.lts.lookup lid = some r)
    (hralive : r.alive = true)
    (hrdisp : r.disp = .rtDisposer) :
    w.ltDispose lid = .ok
      (World.setLt
        { w with log := (w.log ++ [.disposeLt lid]) ++ [.freeRt r.addr] }
        lid { r with alive := true, disposeCount := r.disposeCount + 1 }) := by
  unfold World.ltDispose
  rw [show w.ltRec lid = some r from hr]
  dsimp only
  rw [hralive]
  simp only [Bool.not_true, Bool.false_eq_true, if_false]
  unfold runDisposer
  rw [hrdisp]
  dsimp only
  rw [exceptBind_ok]

/-- Events produced by the auxiliary-disposal loop for a list of lifetimes:
each still-alive lifetime contributes its `dispose()` entry and the free of
its engine value; lifetimes that are not alive contribute nothing. -/
def auxEvents (w : World) : List Nat → List Event
  | [] => []
  | lid :: rest =>
      (if w.ltAlive lid then
        [.disposeLt lid, .freeValue (((w.lts.lookup lid).map (·.addr)).getD 0)]
       else [])
      ++ auxEvents w rest

/-- Unfolding of the auxiliary-disposal events on a cons cell (proof
helper). -/
theorem auxEvents_cons (w : World) (lid : Nat) (rest : List Nat) :
    auxEvents w (lid :: rest) =
      (if w.ltAlive lid then
        [.disposeLt lid, .freeValue (((w.lts.lookup lid).map (·.addr)).getD 0)]
       else []) ++ auxEvents w rest := rfl

/-- Two states that agree on aliveness and protected addresses of the
listed lifetimes produce the same auxiliary-disposal events (proof
helper). -/
theorem auxEvents_congr (w1 w2 : World) :
    ∀ lids : List Nat,
    (∀ lid ∈ lids, w1.ltAlive lid = w2.ltAlive lid ∧
      (w1.lts.lookup lid).map (·.addr) = (w2.lts.lookup lid).map (·.addr)) →
    auxEvents w1 lids = auxEvents w2 lids := by
  intro lids
  induction lids with
  | nil => intro _; rfl
  | cons a as ih =>
      intro h
      obtain ⟨h1, h2⟩ := h a (List.mem_cons_self a as)
      unfold auxEvents
      rw [h1, h2, ih (fun lid hm => h lid (List.mem_cons_of_mem a hm))]

/-- The auxiliary-disposal loop of `QuickJSVm.dispose()`: it succeeds, logs
exactly the per-lifetime events in table order, leaves the VM table and the
records of non-heap-value lifetimes unchanged. -/
theorem vmDispose_auxFold (vmId : Nat) (vm : Vm) (rc : LtRec) :
    ∀ (lids : List Nat) (w : World),
    w.vms.lookup vmId = some vm →
    w.lts.lookup vm.ctxLt = some rc →
    rc.alive = true →
    rc.disp ≠ .freeJSValue vmId →
    (∀ lid ∈ lids, ∃ r : LtRec, w.lts.lookup lid = some r ∧
      r.disp = .freeJSValue vmId) →
    ∃ wF,
      (lids.foldlM
        (fun w lid => if w.ltAlive lid then w.ltDispose lid else .ok w) w) = .ok wF ∧
      wF.log = w.log ++ auxEvents w lids ∧
      wF.vms = w.vms ∧
      (∀ lid2 r2, w.lts.lookup lid2 = some r2 → r2.disp ≠ .freeJSValue vmId →
        wF.lts.lookup lid2 = some r2) := by
  intro lids
  induction lids with
  | nil =>
      intro w hvm hrc hrcA hrcD haux
      exact ⟨w, rfl, by simp [auxEvents], rfl, fun lid2 r2 h2 _ => h2⟩
  | cons a as ih =>
      intro w hvm hrc hrcA hrcD haux
      obtain ⟨ra, hra, hraD⟩ := haux a (List.mem_cons_self a as)
      rw [List.foldlM_cons]
      by_cases hal : w.ltAlive a = true
      · have hraA : ra.alive = true := by
          unfold World.ltAlive World.ltRec at hal
          rw [hra] at hal
          exact hal
        have hstep := ltDispose_freeJSValue_eval w vmId a ra vm rc.addr
          hra hraA hraD hvm (by
            rw [ltValue_ok_iff]
            exact ⟨rc, hrc, hrcA, rfl⟩)
        rw [if_pos hal, hstep, exceptBind_ok]
        set w1 : World := World.setLt
          { w with engine := QTS_FreeValuePointer w.engine ra.addr,
                   log := (w.log ++ [.disposeLt a]) ++ [.freeValue ra.addr] }
          a { ra with alive := true, disposeCount := ra.disposeCount + 1 } with hw1
        have hlk : ∀ lid2, lid2 ≠ a → w1.lts.lookup lid2 = w.lts.lookup lid2 := by
          intro lid2 hne
          rw [hw1]
          unfold World.setLt
          exact lookup_map_update_ne _ _ _ _ hne
        have hlka : w1.lts.lookup a
            = some { ra with alive := true, disposeCount := ra.disposeCount + 1 } := by
          rw [hw1]
          unfold World.setLt
          exact lookup_map_update _ _ _ ra hra
        have hpres : ∀ lid2 r2, w.lts.lookup lid2 = some r2 →
            r2.disp ≠ .freeJSValue vmId → w1.lts.lookup lid2 = some r2 := by
          intro lid2 r2 h2 h2d
          by_cases he : lid2 = a
          · exfalso
            rw [he, hra] at h2
            cases h2
            exact h2d hraD
          · rw [hlk lid2 he]
            exact h2
        have haux1 : ∀ lid ∈ as, ∃ r : LtRec, w1.lts.lookup lid = some r ∧
            r.disp = .freeJSValue vmId := by
          intro lid hmem
          obtain ⟨r, hrl, hrd⟩ := haux lid (List.mem_cons_of_mem a hmem)
          by_cases he : lid = a
          · subst he
            rw [hra] at hrl
            cases hrl
            exact ⟨_, hlka, hrd⟩
          · rw [hlk lid he]
            exact ⟨r, hrl, hrd⟩
        obtain ⟨wF, hfold, hlog, hvms, hkeep⟩ := ih w1
          (by rw [show w1.vms = w.vms from rfl]; exact hvm)
          (hpres vm.ctxLt rc hrc hrcD) hrcA hrcD haux1
        refine ⟨wF, hfold, ?_, hvms.trans rfl, ?_⟩
        · rw [hlog]
          have hevents : auxEvents w1 as = auxEvents w as := by
            apply auxEvents_congr
            intro lid hmem
            by_cases he : lid = a
            · subst he
              constructor
              · unfold World.ltAlive World.ltRec
                rw [hlka, hra]
                simp [hraA]
              · rw [hlka, hra]
                rfl
            · exact ⟨by unfold World.ltAlive World.ltRec; rw [hlk lid he],
                by rw [hlk lid he]⟩
          rw [hevents]
          rw [auxEvents_cons]
          rw [if_pos hal, hra]
          rw [show w1.log = (w.log ++ [Event.disposeLt a]) ++ [Event.freeValue ra.addr]
            from rfl]
          simp [List.append_assoc]
        · intro lid2 r2 h2 h2d
          exact hkeep lid2 r2 (hpres lid2 r2 h2 h2d) h2d
      · rw [if_neg hal]
        rw [exceptBind_ok]
        obtain ⟨wF, hfold, hlog, hvms, hkeep⟩ := ih w hvm hrc hrcA hrcD
          (fun lid hmem => haux lid (List.mem_cons_of_mem a hmem))
        refine ⟨wF, hfold, ?_, hvms, hkeep⟩
        rw [hlog]
        rw [auxEvents_cons]
        rw [if_neg hal]
        rw [List.nil_append]

/-- C7: `QuickJSVm.dispose()` first disposes each still-alive lifetime in
the VM's auxiliary-disposal table (skipping ones already not alive, in
table order), then disposes the context lifetime (removing the runtime
manager's table entry before freeing the context), then disposes the
runtime lifetime — the event log extends in exactly that order. -/
theorem c7_vm_dispose_order (w : World) (vmId : Nat) (vm : Vm) (rc rd : LtRec)
    (hvm : w.vms.lookup vmId = some vm)
    (hrc : w.lts.lookup vm.ctxLt = some rc)
    (hrcA : rc.alive = true) (hrcD : rc.disp = .ctxDisposer)
    (hrd : w.lts.lookup vm.rtLt = some rd)
    (hrdA : rd.alive = true) (hrdD : rd.disp = .rtDisposer)
    (haux : ∀ lid ∈ vm.auxLts, ∃ r : LtRec, w.lts.lookup lid = some r ∧
      r.disp = .freeJSValue vmId) :
    ∃ wF, vmDispose vmId w = .ok wF ∧
      wF.log = w.log ++ auxEvents w vm.auxLts
        ++ [.disposeLt vm.ctxLt, .vmMapDelete rc.addr, .freeCtx rc.addr]
        ++ [.disposeLt vm.rtLt, .freeRt rd.addr] := by
  have hrcD' : rc.disp ≠ .freeJSValue vmId := by
    rw [hrcD]
    intro h
    cases h
  have hrdD' : rd.disp ≠ .freeJSValue vmId := by
    rw [hrdD]
    intro h
    cases h
  obtain ⟨w1, hfold, hlog1, hvms1, hkeep1⟩ :=
    vmDispose_auxFold vmId vm rc vm.auxLts w hvm hrc hrcA hrcD' haux
  have hrc1 : w1.lts.lookup vm.ctxLt = some rc := hkeep1 vm.ctxLt rc hrc hrcD'
  have hrd1 : w1.lts.lookup vm.rtLt = some rd := hkeep1 vm.rtLt rd hrd hrdD'
  have hne : vm.rtLt ≠ vm.ctxLt := by
    intro he
    rw [he] at hrd1
    rw [hrd1] at hrc1
    cases hrc1
    rw [hrcD] at hrdD
    cases hrdD
  have hctxStep := ltDispose_ctx_eval w1 vm.ctxLt rc hrc1 hrcA hrcD
  have hrd2 : (World.setLt
      { w1 with vmMap := w1.vmMap.filter (fun p => p.1 ≠ rc.addr),
                log := (w1.log ++ [.disposeLt vm.ctxLt])
                  ++ [.vmMapDelete rc.addr, .freeCtx rc.addr] }
      vm.ctxLt { rc with alive := true, disposeCount := rc.disposeCount + 1 }
      ).lts.lookup vm.rtLt = some rd := by
    unfold World.setLt
    rw [lookup_map_update_ne _ _ _ _ hne]
    exact hrd1
  have hrtStep := ltDispose_rt_eval _ vm.rtLt rd hrd2 hrdA hrdD
  unfold vmDispose
  rw [show w.getVm vmId = .ok vm from by unfold World.getVm; rw [hvm]]
  rw [exceptBind_ok, hfold, exceptBind_ok, hctxStep, exceptBind_ok, hrtStep]
  refine ⟨_, rfl, ?_⟩
  show (((w1.log ++ [Event.disposeLt vm.ctxLt])
      ++ [Event.vmMapDelete rc.addr, Event.freeCtx rc.addr])
      ++ [Event.disposeLt vm.rtLt]) ++ [Event.freeRt rd.addr]
    = w.log ++ auxEvents w vm.auxLts
      ++ [.disposeLt vm.ctxLt, .vmMapDelete rc.addr, .freeCtx rc.addr]
      ++ [.disposeLt vm.rtLt, .freeRt rd.addr]
  rw [hlog1]
  simp [List.append_assoc]

/-- Concrete teardown state: VM 0 with context lifetime 0 (address 100),
runtime lifetime 3 (address 101), and auxiliary table [1, 2] where lifetime
1 is alive (address 50) and lifetime 2 is not alive (address 51). -/
def w7 : World :=
  { w0empty with
    engine := { w0empty.engine with
                heap := [(50, .obj []), (51, .obj [])]
                nextAddr := 60 },
    lts := [(0, ⟨100, none, .ctxDisposer, true, 0⟩),
            (1, ⟨50, some 0, .freeJSValue 0, true, 0⟩),
            (2, ⟨51, some 0, .freeJSValue 0, false, 0⟩),
            (3, ⟨101, none, .rtDisposer, true, 0⟩)],
    nextLt := 4,
    vms := [(0, ⟨0, 3, none, none, [1, 2], 0, []⟩)],
    vmMap := [(100, 0)] }

/-- Witness for C7 at a concrete state: disposing VM 0 disposes the alive
auxiliary lifetime 1, skips the dead lifetime 2, then disposes the context
(deleting its vm-table entry before the context free) and finally the
runtime, in exactly that order. -/
theorem c7_vm_dispose_order_witness :
    ∃ wF, vmDispose 0 w7 = .ok wF ∧
      wF.log = [.disposeLt 1, .freeValue 50,
        .disposeLt 0, .vmMapDelete 100, .freeCtx 100,
        .disposeLt 3, .freeRt 101] := by
  obtain ⟨wF, h1, h2⟩ := c7_vm_dispose_order w7 0 ⟨0, 3, none, none, [1, 2], 0, []⟩
    ⟨100, none, .ctxDisposer, true, 0⟩ ⟨101, none, .rtDisposer, true, 0⟩
    rfl rfl rfl rfl rfl rfl rfl
    (by
      intro lid hm
      rcases List.mem_cons.mp hm with h1 | hm2
      · subst h1
        exact ⟨_, rfl, rfl⟩
      · rcases List.mem_cons.mp hm2 with h2 | h3
        · subst h2
          exact ⟨_, rfl, rfl⟩
        · cases h3)
  refine ⟨wF, h1, ?_⟩
  rw [h2]
  rfl

/-- Concrete dispatch state: VM 0 (context lifetime 0 wrapping context
address 100) has callback id 1 registered (implementation tag 0); the
engine holds the callback id value at address 10 and an argument array at
address 20 containing the single argument value address 30. -/
def w3x : World :=
  { w0empty with
    engine := { w0empty.engine with
                heap := [(10, .num 1), (30, .str "x")]
                argvs := [(20, [30])]
                nextAddr := 60 },
    lts := [(0, ⟨100, none, .ctxDisposer, true, 0⟩)],
    nextLt := 1,
    vms := [(0, ⟨0, 99, none, none, [], 1, [(1, 0)]⟩)],
    vmMap := [(100, 0)] }

/-- C3: evaluation of an engine-to-host dispatch at a concrete input.  The
host implementation (which returns no value) receives exactly argc = 1
argument handle (lifetime 2, wrapping the argument address 30, owned by the
VM; together with the `this` handle, lifetime 1, exactly two lifetimes are
created).  Before the dispatch returns, `dispose()` is invoked on both
still-alive handles (each dispose counter reads 1).  However — the code
bug — because `Lifetime.dispose` assigns `_alive = true`, both handles
remain alive after the dispatch returns and their values are still
readable, contradicting the claim (and the source's own comment "Free the
arguments so they can't be retained and re-used after we return") that the
handles are no longer usable. -/
theorem c3_dispatch_disposes_but_keeps_alive :
    ∃ wF, cToHostCallbackFunction interpNothing 0 w3x 100 40 1 20 10
        = .ok (wF, 0) ∧
      wF.nextLt = 3 ∧
      wF.lts.lookup 1 = some ⟨40, some 0, .noDisposer, true, 1⟩ ∧
      wF.lts.lookup 2 = some ⟨30, some 0, .noDisposer, true, 1⟩ ∧
      wF.ltValue 1 = .ok 40 ∧
      wF.ltValue 2 = .ok 30 := by
  exact ⟨_, rfl, rfl, rfl, rfl, rfl, rfl⟩
